import Mathlib

/-!
Verification of the rent-roll extraction core
(`src/rent_roll_extraktor_v2_1_FINAL.py`) against its specification.

The Python code is shallowly embedded: strings are `String`/`List Char`,
Python `float` values are modelled as exact rationals (`Rat`) — none of the
verified properties depend on binary floating-point rounding — and `dict`
records are association lists.  Regular expressions used by the source are
translated into explicit scanning functions with the same leftmost-match,
first-alternative semantics.  Python `\d`/`\w`/`\s` character classes are
modelled over the characters that actually occur in the program's tables and
in the inputs of the theorems below (ASCII plus the accented letters of the
synonym table).
-/

namespace RentRoll

/-- The apostrophe character (ASCII 39), used by the Swiss grouping format. -/
def apos : Char := Char.ofNat 39

/-- Characters the numeric extraction regex `[\d.,']` keeps. -/
def isNumChar (c : Char) : Bool := c.isDigit || c = '.' || c = ',' || c = apos

/-- Python `str.strip()` on the left: drop leading whitespace. -/
def dropLeadingWS (cs : List Char) : List Char := cs.dropWhile Char.isWhitespace

/-- Python `str.strip()`: drop leading and trailing whitespace. -/
def pyStrip (cs : List Char) : List Char :=
  ((cs.dropWhile Char.isWhitespace).reverse.dropWhile Char.isWhitespace).reverse

/-- `pyStrip` lifted to `String`. -/
def pyStripS (s : String) : String := String.mk (pyStrip s.data)

/-- Python `str.split(sep)` for a one-character separator, on char lists. -/
def splitOnChar (sep : Char) : List Char → List (List Char)
  | [] => [[]]
  | c :: rest =>
    let r := splitOnChar sep rest
    if c = sep then [] :: r
    else
      match r with
      | [] => [[c]]
      | h :: t => (c :: h) :: t

/-- Index of the last occurrence of `c`, Python `str.rfind` (−1 if absent). -/
def lastIdxAux (c : Char) : List Char → Option Nat
  | [] => none
  | x :: xs =>
    match lastIdxAux c xs with
    | some i => some (i + 1)
    | none => if x = c then some 0 else none

/-- Python `str.rfind`: last index of `c`, `-1` when absent. -/
def rfind (c : Char) (cs : List Char) : Int :=
  match lastIdxAux c cs with
  | some i => (i : Int)
  | none => -1

/-- Value of a digit string read in base 10 (`digitsToNat [] = 0`). -/
def digitsToNat (cs : List Char) : Nat :=
  cs.foldl (fun a c => 10 * a + (c.toNat - 48)) 0

/-- Python `float()` restricted to the alphabet reachable in
`_parse_numeric_string` after separator resolution (digits and dots):
accepts at most one dot and at least one digit, else fails. -/
def floatVal (cs : List Char) : Option Rat :=
  if cs.all (fun c => c.isDigit || c = '.') && cs.count '.' ≤ 1
      && cs.any (fun c => c.isDigit) then
    match splitOnChar '.' cs with
    | [i] => some (digitsToNat i)
    | [i, f] => some ((digitsToNat i : Rat) + (digitsToNat f : Rat) / (10 : Rat) ^ f.length)
    | _ => none
  else none

/-- The accounting-negative regex `^\s*\(([^)]+)\)\s*$` applied to an already
stripped string: an opening parenthesis, a nonempty run of characters none of
which is a closing parenthesis, then the closing parenthesis. -/
def parenMatch (cs : List Char) : Option (List Char) :=
  match cs with
  | [] => none
  | c :: rest =>
    if c = '(' then
      let mid := rest.dropLast
      if rest.getLast? = some ')' && !mid.isEmpty && !mid.contains ')' then some mid
      else none
    else none

/-- Sign detection of `_parse_numeric_string`: parentheses (accounting
negative), else a leading ASCII minus, else a leading Unicode minus. -/
def splitSign (cs : List Char) : Bool × List Char :=
  match parenMatch cs with
  | some mid => (true, mid)
  | none =>
    match cs with
    | [] => (false, [])
    | c :: rest =>
      if c = '-' then (true, rest)
      else if c = '−' then (true, rest)
      else (false, c :: rest)

/-- `c in s` for a single character. -/
def hasChar (cs : List Char) (c : Char) : Bool := cs.any (fun x => x = c)

/-- Separator-resolution step of `_parse_numeric_string` (the code between
the locale-format detection and the final `float()` call), acting on the
extracted numeric characters with apostrophes already removed. -/
def resolveSeps (numStr : List Char) : List Char :=
  let hasComma := hasChar numStr ','
  let hasDot := hasChar numStr '.'
  if hasComma && hasDot then
    if rfind ',' numStr > rfind '.' numStr then
      (numStr.filter (fun c => c ≠ '.')).map (fun c => if c = ',' then '.' else c)
    else
      numStr.filter (fun c => c ≠ ',')
  else if hasComma then
    let parts := splitOnChar ',' numStr
    if parts.length = 2 && (parts.getD 1 []).length = 3 then
      numStr.filter (fun c => c ≠ ',')
    else if parts.length = 2 && (parts.getD 1 []).length ≤ 2 then
      numStr.map (fun c => if c = ',' then '.' else c)
    else
      numStr.filter (fun c => c ≠ ',')
  else if hasDot then
    let parts := splitOnChar '.' numStr
    if parts.length = 2 && (parts.getD 1 []).length = 3 then
      numStr.filter (fun c => c ≠ '.')
    else numStr
  else numStr

/-- `NumberUnitParser._parse_numeric_string`: locale-aware numeric parsing.
Returns `none` where the Python code returns `None`. -/
def parseNumericString (text : String) : Option Rat :=
  if text.data.isEmpty then none
  else
    let cleaned := pyStrip text.data
    let (isNeg, body) := splitSign cleaned
    let numericChars := body.filter isNumChar
    if numericChars.isEmpty then none
    else
      let numStr := numericChars.filter (fun c => c ≠ apos)
      match floatVal (resolveSeps numStr) with
      | some v => some (if isNeg then -|v| else v)
      | none => none

/-! ## `NumberUnitParser.parse` and its unit-specific branches -/

/-- Result of a parse: `NumberWithUnit` dataclass of the source. -/
structure NumberWithUnit where
  value : Option Rat
  unit : Option String
  original_text : String
deriving DecidableEq, Repr

/-- The string form of the apostrophe character. -/
def aposS : String := String.mk [apos]

/-- `APPROX_PREFIXES` of the source: leading approximation markers. -/
def approxMarkers : List String :=
  ["approx.", "ca.", "~", "circa", "ungefähr", "environ", "about", "roughly"]

/-- `OPERATORS` of the source: leading comparison operators. -/
def OPERATORS : List String := [">=", "<=", ">", "<", "=", "≥", "≤"]

/-- Case-insensitive `str.startswith` on char lists. -/
def startsWithCI (cs pat : List Char) : Bool :=
  (cs.take pat.length).map Char.toLower = pat.map Char.toLower

/-- Case-sensitive `str.startswith` on char lists. -/
def startsWithCS (cs pat : List Char) : Bool := cs.take pat.length = pat

/-- Strip the first matching approximation marker (case-insensitive), then
`strip()`; only the first match is removed (the Python loop breaks). -/
def stripApprox : List String → List Char → List Char
  | [], cs => cs
  | p :: ps, cs =>
    if startsWithCI cs p.data then pyStrip (cs.drop p.data.length)
    else stripApprox ps cs

/-- Strip the first matching leading operator, then `strip()`. -/
def stripOps : List String → List Char → List Char
  | [], cs => cs
  | p :: ps, cs =>
    if startsWithCS cs p.data then pyStrip (cs.drop p.data.length)
    else stripOps ps cs

/-- `NumberUnitParser._clean_prefixes`: strip leading approximation markers
and comparison operators. -/
def cleanAffixes (text : List Char) : List Char :=
  stripOps OPERATORS (stripApprox approxMarkers (pyStrip text))

/-- After optional whitespace, is the next character a percent sign?
(the `\s*%` tail of the percent regex). -/
def wsThenPercent (cs : List Char) : Bool :=
  match cs.dropWhile Char.isWhitespace with
  | '%' :: _ => true
  | _ => false

/-- Match of `(\d+(?:[.,]\d+)?)\s*%` anchored at the current position,
returning capture group 1.  Greedy with backtracking: the optional
fractional part is preferred; shrinking a digit run can never expose a
`\s*%` tail, so only the two candidates below exist. -/
def percentAt (cs : List Char) : Option (List Char) :=
  let d1 := cs.takeWhile Char.isDigit
  let r1 := cs.dropWhile Char.isDigit
  if d1.isEmpty then none
  else
    match r1 with
    | sep :: r2 =>
      if (sep = '.' || sep = ',') && !(r2.takeWhile Char.isDigit).isEmpty then
        let d2 := r2.takeWhile Char.isDigit
        let r3 := r2.dropWhile Char.isDigit
        if wsThenPercent r3 then some (d1 ++ sep :: d2)
        else if wsThenPercent r1 then some d1
        else none
      else if wsThenPercent r1 then some d1 else none
    | [] => if wsThenPercent r1 then some d1 else none

/-- `re.search` for the percent pattern: leftmost match wins. -/
def percentSearch : List Char → Option (List Char)
  | [] => none
  | c :: rest =>
    match (if c.isDigit then percentAt (c :: rest) else none) with
    | some g => some g
    | none => percentSearch rest

/-- `NumberUnitParser._parse_percentage`. -/
def parsePercentage (text : String) : NumberWithUnit :=
  let cleaned := cleanAffixes text.data
  match percentSearch cleaned with
  | some g => ⟨parseNumericString (String.mk g), some "%", text⟩
  | none => ⟨parseNumericString (String.mk (cleaned.filter (fun c => c ≠ '%'))), some "%", text⟩

/-- The character class of the compiled currency-symbol regex `([€$£¥₹元])`.
Note: the two-character symbols `zł` and `kr` of `CURRENCY_SYMBOLS` do NOT
appear in this regex. -/
def currencySymbolChars : List Char := ['€', '$', '£', '¥', '₹', '元']

/-- `currency_symbol_pattern.search`: first character in the class. -/
def symbolSearch (cs : List Char) : Option Char :=
  cs.find? (fun c => currencySymbolChars.contains c)

/-- `currency_symbol_pattern.sub('', ·)`: every single-character match is a
character of the class, so substitution deletes all of them. -/
def symbolSub (cs : List Char) : List Char :=
  cs.filter (fun c => !currencySymbolChars.contains c)

/-- `NumberUnitParser.CURRENCY_SYMBOLS`: symbol → ISO code table. -/
def CURRENCY_SYMBOLS : List (String × String) :=
  [("€", "EUR"), ("$", "USD"), ("£", "GBP"), ("zł", "PLN"),
   ("kr", "SEK"), ("₹", "INR"), ("¥", "JPY"), ("元", "CNY")]

/-- `CURRENCY_SYMBOLS.get(symbol, symbol)`. -/
def currencySymbolLookup (sym : String) : String :=
  match CURRENCY_SYMBOLS.find? (fun p => p.1 = sym) with
  | some p => p.2
  | none => sym

/-- Alternatives of the compiled ISO-code regex, lowercase, in pattern order
(all distinct three-letter codes, so the order is immaterial at one
position). -/
def isoCodes : List String :=
  ["eur", "usd", "gbp", "chf", "pln", "sek", "dkk", "nok",
   "czk", "huf", "cad", "aud", "inr", "jpy", "cny", "nzd"]

/-- Accented letters and the superscript two appearing in the program's
tables; Python's Unicode `\w` treats them as word characters. -/
def extraWordChars : List Char :=
  ['à', 'á', 'â', 'ä', 'ç', 'è', 'é', 'ê', 'ë', 'ì', 'í', 'î', 'ï',
   'ò', 'ó', 'ô', 'ö', 'ù', 'ú', 'û', 'ü', 'ß', 'ł', 'ą', 'ę', 'ś',
   'ż', 'ź', 'ć', 'ń', '²']

/-- Python regex `\w` over the characters this development manipulates. -/
def isWordChar (c : Char) : Bool := c.isAlphanum || c = '_' || extraWordChars.contains c

/-- `\b` before a match: start of string or a non-word character. -/
def boundaryOK : Option Char → Bool
  | none => true
  | some p => !isWordChar p

/-- `\b` after a match: end of string or a non-word character. -/
def endBoundary : List Char → Bool
  | [] => true
  | d :: _ => !isWordChar d

/-- Word-boundary-delimited ISO-code match at the current position
(the leading `\b` is checked by the scanner). -/
def codeAt (cs : List Char) : Option (List Char) :=
  if 3 ≤ cs.length && isoCodes.any (fun code => (cs.take 3).map Char.toLower = code.data)
      && endBoundary (cs.drop 3) then
    some (cs.take 3)
  else none

/-- `currency_code_pattern.search`: leftmost word-boundary match. -/
def codeSearchAux (prev : Option Char) : List Char → Option (List Char)
  | [] => none
  | c :: rest =>
    match (if boundaryOK prev then codeAt (c :: rest) else none) with
    | some m => some m
    | none => codeSearchAux (some c) rest

/-- `currency_code_pattern.search` from the start of the string. -/
def codeSearch (cs : List Char) : Option (List Char) := codeSearchAux none cs

/-- `currency_code_pattern.sub('', ·)`: delete every non-overlapping match,
scanning left to right over the original characters. -/
def codeSubAux (prev : Option Char) : List Char → List Char
  | c1 :: c2 :: c3 :: rest =>
    if boundaryOK prev && (codeAt (c1 :: c2 :: c3 :: rest)).isSome then
      codeSubAux (some c3) rest
    else c1 :: codeSubAux (some c1) (c2 :: c3 :: rest)
  | cs => cs

/-- `currency_code_pattern.sub('', ·)` from the start of the string. -/
def codeSub (cs : List Char) : List Char := codeSubAux none cs

/-- `NumberUnitParser._parse_currency`. -/
def parseCurrency (text : String) : NumberWithUnit :=
  let cleaned := cleanAffixes text.data
  let step1 :=
    match symbolSearch cleaned with
    | some sym => (some (currencySymbolLookup (String.mk [sym])), symbolSub cleaned)
    | none => ((none : Option String), cleaned)
  let step2 :=
    match codeSearch step1.2 with
    | some m => (some (String.mk (m.map Char.toUpper)), codeSub step1.2)
    | none => (step1.1, step1.2)
  ⟨parseNumericString (String.mk step2.2), step2.1, text⟩

/-- Simple alternatives of the area regex, lowercase, in pattern order. -/
def areaAlts : List String := ["m²", "m2", "sqm", "qm", "sqft", "sf", "ft²", "ft2"]

/-- Suffix alternatives of `square\s*(?:feet|metres?|meters?)`, in
backtracking order (greedy `s?` first). -/
def squareWords : List String := ["feet", "metres", "metre", "meters", "meter"]

/-- Case-insensitive literal match at the current position (`lit` must be
lowercase). -/
def matchLit (cs lit : List Char) : Bool :=
  lit.length ≤ cs.length && (cs.take lit.length).map Char.toLower = lit

/-- Length of the area-pattern match at the current position, trying the
alternatives in pattern order. -/
def areaMatchLen (cs : List Char) : Option Nat :=
  match areaAlts.find? (fun a => matchLit cs a.data) with
  | some a => some a.data.length
  | none =>
    if matchLit cs "square".data then
      let rest := cs.drop 6
      let w := (rest.takeWhile Char.isWhitespace).length
      let rest2 := rest.drop w
      match squareWords.find? (fun a => matchLit rest2 a.data) with
      | some a => some (6 + w + a.data.length)
      | none => none
    else none

/-- `re.search` for a leftmost match of a literal-length pattern, returning
the matched text. -/
def scanSearchLen (matchLen : List Char → Option Nat) : List Char → Option (List Char)
  | [] => none
  | c :: rest =>
    match matchLen (c :: rest) with
    | some n => some ((c :: rest).take n)
    | none => scanSearchLen matchLen rest

/-- `re.sub(pattern, '', ·)` driven by a match-length function; all the
patterns used below match at least one character, so fuel `cs.length`
suffices. -/
def scanSubFuel (matchLen : List Char → Option Nat) : Nat → List Char → List Char
  | 0, cs => cs
  | _ + 1, [] => []
  | fuel + 1, c :: rest =>
    match matchLen (c :: rest) with
    | some (n + 1) => scanSubFuel matchLen fuel ((c :: rest).drop (n + 1))
    | _ => c :: scanSubFuel matchLen fuel rest

/-- `area_pattern.search`. -/
def areaSearch (cs : List Char) : Option (List Char) := scanSearchLen areaMatchLen cs

/-- `area_pattern.sub('', ·)`. -/
def areaSub (cs : List Char) : List Char := scanSubFuel areaMatchLen cs.length cs

/-- `NumberUnitParser.AREA_UNITS`: raw token → normalized spelling. -/
def AREA_UNITS : List (String × String) :=
  [("m²", "m²"), ("m2", "m²"), ("sqm", "m²"), ("qm", "m²"),
   ("sqft", "sqft"), ("sf", "sqft"), ("ft²", "sqft"), ("ft2", "sqft"),
   ("square feet", "sqft"), ("square metres", "m²"), ("square meters", "m²")]

/-- `AREA_UNITS.get(raw, raw)`. -/
def areaUnitLookup (raw : String) : String :=
  match AREA_UNITS.find? (fun p => p.1 = raw) with
  | some p => p.2
  | none => raw

/-- `NumberUnitParser._parse_area`. -/
def parseArea (text : String) : NumberWithUnit :=
  let cleaned := cleanAffixes text.data
  match areaSearch cleaned with
  | some m =>
    let raw := String.mk (pyStrip (m.map Char.toLower))
    ⟨parseNumericString (String.mk (areaSub cleaned)), some (areaUnitLookup raw), text⟩
  | none => ⟨parseNumericString (String.mk cleaned), none, text⟩

/-- The merged `{**time_units, **magnitude_units}` dictionary of
`_extract_other_unit`, in Python insertion order. -/
def unitKeywords : List (String × String) :=
  [("jahre", "Jahre"), ("year", "years"), ("years", "years"), ("yr", "years"),
   ("monate", "Monate"), ("month", "months"), ("months", "months"), ("mo", "months"),
   ("tage", "Tage"), ("day", "days"), ("days", "days"),
   ("wochen", "Wochen"), ("week", "weeks"), ("weeks", "weeks"),
   ("mio", "mio"), ("million", "mio"), ("mrd", "mrd"), ("billion", "billion"),
   ("tsd", "tsd"), ("thousand", "thousand"), ("k", "k")]

/-- `\b key \b` match at the current position (trailing boundary only; the
leading boundary is the scanner's business). -/
def wordAt (key cs : List Char) : Bool :=
  matchLit cs key && endBoundary (cs.drop key.length)

/-- `re.search(r'\b' + key + r'\b', ·)` as a Boolean. -/
def wordSearchAux (key : List Char) (prev : Option Char) : List Char → Bool
  | [] => false
  | c :: rest =>
    (boundaryOK prev && wordAt key (c :: rest)) || wordSearchAux key (some c) rest

/-- `NumberUnitParser._extract_other_unit`: first keyword (in dictionary
order) found with word boundaries in the lowercased text. -/
def extractOtherUnit (cs : List Char) : Option String :=
  let lower := cs.map Char.toLower
  match unitKeywords.find? (fun kv => wordSearchAux kv.1.data none lower) with
  | some kv => some kv.2
  | none => none

/-- `re.sub(r'\b' + key + r'\b', '', ·, flags=IGNORECASE)`; the prev
character for boundary checks after a deletion is the last matched original
character, per `re.sub` scanning. -/
def wordSubFuel (key : List Char) : Nat → Option Char → List Char → List Char
  | 0, _, cs => cs
  | _ + 1, _, [] => []
  | fuel + 1, prev, c :: rest =>
    if boundaryOK prev && wordAt key (c :: rest) && !key.isEmpty then
      wordSubFuel key fuel ((c :: rest).take key.length).getLast? ((c :: rest).drop key.length)
    else c :: wordSubFuel key fuel (some c) rest

/-- `re.sub(r'\b' + key + r'\b', '', ·)` from the start. -/
def wordSub (key cs : List Char) : List Char := wordSubFuel key cs.length none cs

/-- `NumberUnitParser._parse_with_unit`: the unit token is removed (the
Python loop substitutes with `unit.lower()` and `unit`; both passes use
IGNORECASE, modelled as two case-insensitive passes with the lowered key). -/
def parseWithUnit (text unit : String) : NumberWithUnit :=
  let cleaned := cleanAffixes text.data
  let cleaned := wordSub (unit.data.map Char.toLower) cleaned
  let cleaned := wordSub (unit.data.map Char.toLower) cleaned
  ⟨parseNumericString (String.mk cleaned), some unit, text⟩

/-- The null/blank sentinel tuple of `NumberUnitParser.parse`. -/
def sentinels : List String := ["", "-", "–", "n/a", "na", "null", "none", "00:00:00"]

/-- Python `str.lower()` (ASCII model; the sentinels are ASCII). -/
def lowerS (s : String) : String := String.mk (s.data.map Char.toLower)

/-- `NumberUnitParser.parse` on string input (`None`/NaN and already-numeric
scalars take the two earlier early-return branches, see `parseCell`). -/
def parseString (s : String) : NumberWithUnit :=
  let original := pyStripS s
  if original.data.isEmpty || sentinels.contains (lowerS original) then
    ⟨none, none, original⟩
  else
    let cleaned := cleanAffixes original.data
    if cleaned.contains '%' then parsePercentage original
    else if (symbolSearch cleaned).isSome || (codeSearch cleaned).isSome then
      parseCurrency original
    else if (areaSearch cleaned).isSome then parseArea original
    else
      match extractOtherUnit cleaned with
      | some u => parseWithUnit original u
      | none => ⟨parseNumericString (String.mk cleaned), none, original⟩

/-! ## HeaderMapper -/

/-- `hay.take needle.length = needle`: does `needle` start `hay`? -/
def startsSeq (hay needle : List Char) : Bool := hay.take needle.length = needle

/-- Python `needle in hay` substring containment (contiguous). -/
def containsSeq (needle : List Char) : List Char → Bool
  | [] => needle.isEmpty
  | c :: rest => startsSeq (c :: rest) needle || containsSeq needle rest

/-- `re.sub(r'\s+', ' ', ·)`: collapse whitespace runs to single spaces. -/
def collapseWSFuel : Nat → List Char → List Char
  | 0, cs => cs
  | _ + 1, [] => []
  | fuel + 1, c :: rest =>
    if c.isWhitespace then ' ' :: collapseWSFuel fuel (rest.dropWhile Char.isWhitespace)
    else c :: collapseWSFuel fuel rest

/-- `re.sub(r'\s+', ' ', ·)` with adequate fuel. -/
def collapseWS (cs : List Char) : List Char := collapseWSFuel cs.length cs

/-- `HeaderMapper.normalize_header`: lowercase, strip, punctuation → space,
collapse whitespace, strip. -/
def normalizeHeader (s : String) : String :=
  let h := pyStrip (s.data.map Char.toLower)
  let h := h.map (fun c => if isWordChar c || c.isWhitespace then c else ' ')
  String.mk (pyStrip (collapseWS h))

/-- `HeaderMapper.DEFAULT_SYNONYMS`, in Python dict insertion order. -/
def DEFAULT_SYNONYMS : List (String × List String) :=
  [("unit_id", ["unit id", "unit-id", "unit number", "einheit", "einheit nr", "unit no",
      "mieteinheit", "numéro d" ++ aposS ++ "unité", "numero unità", "eenheidnummer"]),
   ("tenant_name", ["tenant", "tenant name", "mieter", "mietername", "locataire",
      "nom du locataire", "inquilino", "huurder", "najemca", "hyresgäst",
      "customer", "kunde", "client"]),
   ("area_sqm", ["area sqm", "area (sqm)", "fläche m²", "fläche (m²)", "sqm", "m²", "m2",
      "superficie (m²)", "oppervlakte (m²)", "powierzchnia (m²)"]),
   ("area_sqft", ["area sqft", "area (sqft)", "sqft", "sq ft", "square feet", "sf"]),
   ("monthly_rent", ["monthly rent", "rent", "miete", "monatliche miete", "monatsmiete",
      "loyer mensuel", "affitto mensile", "maandelijkse huur", "czynsz miesięczny",
      "nkm", "nkm ist-miete", "netto kaltmiete", "cold rent"]),
   ("annual_rent", ["annual rent", "yearly rent", "jahresmiete", "loyer annuel",
      "affitto annuale", "jaarlijkse huur", "roczny czynsz"]),
   ("lease_start", ["lease start", "lease start date", "start date", "mietbeginn",
      "vertragsbeginn", "début du bail", "inizio locazione", "startdatum"]),
   ("lease_end", ["lease end", "lease end date", "end date", "mietende", "vertragsende",
      "laufzeitende", "fin du bail", "fine locazione", "einddatum"]),
   ("status", ["status", "occupancy", "belegung", "état", "stato", "bezettingsstatus"]),
   ("currency", ["currency", "währung", "devise", "valuta", "moneda"]),
   ("lease_type", ["lease type", "vertragsart", "mietvertragsart", "type de bail"]),
   ("usage_type", ["usage type", "nutzungsart", "type d" ++ aposS ++ "utilisation", "uso"]),
   ("occupancy_rate", ["occupancy rate", "belegungsquote", "taux d" ++ aposS ++ "occupation"]),
   ("service_charge", ["service charge", "nebenkosten", "betriebskosten", "nk",
      "charges", "oneri accessori", "servicekosten"]),
   ("parking_spaces", ["parking", "parking spaces", "parkplätze", "stellplätze",
      "places de parking", "posti auto", "parkeerplaatsen"]),
   ("sap_object_number", ["sap objektnummer", "sap-objektnummer", "sap object number",
      "sap object", "sap-objektnr", "sap objektnr", "sap id", "sap-object",
      "sap objekt id", "sap-objekt"]),
   ("composite_unit_id", ["mo/bk/wirtschaftseinheit/mo-nr", "mo/bk/wirtschaftseinheit/mo",
      "mo/bk/wi/mo-nr", "mo-bk-wirtschaftseinheit-mo-nr",
      "mo / bk / wirtschaftseinheit / mo-nr", "composite unit id",
      "composite unit", "mo bk wirtschaftseinheit mo nr"]),
   ("mo_number", ["mo nummer", "mo-nummer", "mo nr", "mo-nr", "mo number", "mo no",
      "mietobjekt nummer", "mietobjekt-nr", "mietobjekt-nr."]),
   ("business_unit", ["wirtschaftseinheit", "business unit", "wirtschafts einheit",
      "wi einheit", "we", "we einheit"]),
   ("business_unit_code", ["kürzel der wirtschaftseinheit", "wirtschaftseinheit kürzel",
      "we kürzel", "unit code", "einheitskürzel", "c", "we code"]),
   ("bookkeeping_area", ["bk", "buchungskreis", "booking area", "buchungsbereich"]),
   ("contractual_partner", ["vertragspartner", "vrtragspartner", "contractual partner",
      "contract partner"]),
   ("contract_id", ["contract id", "stammvertrag-id", "vertragsnummer", "vertrags-nr",
      "vertragsnr", "vertrags nr", "contract number", "contract no.", "u"])]

/-- One synonym's test in `map_header`'s inner loop: exact normalized match,
or (for synonyms longer than 3 characters) containment of the normalized
synonym in the normalized header. -/
def synHit (normalized : String) (syn : String) : Bool :=
  normalizeHeader syn = normalized
    || (3 < syn.length && containsSeq (normalizeHeader syn).data normalized.data)

/-- The two nested loops of `HeaderMapper.map_header`. -/
def mapHeaderAux (normalized : String) : List (String × List String) → Option String
  | [] => none
  | (canonical, syns) :: rest =>
    if syns.any (fun syn => synHit normalized syn) then some canonical
    else mapHeaderAux normalized rest

/-- `HeaderMapper.map_header` with the default synonym table. -/
def mapHeader (raw : String) : Option String :=
  let normalized := normalizeHeader raw
  if normalized = "" then none
  else mapHeaderAux normalized DEFAULT_SYNONYMS

/-- The synonym table flattened to (canonical, synonym) pairs in iteration
order: used to characterize `map_header`'s true first-match semantics. -/
def flatSynonymPairs : List (String × String) :=
  DEFAULT_SYNONYMS.flatMap (fun p => p.2.map (fun syn => (p.1, syn)))

/-- First-match semantics over the flattened pair list. -/
def mapHeaderFlat (raw : String) : Option String :=
  let normalized := normalizeHeader raw
  if normalized = "" then none
  else
    match flatSynonymPairs.find? (fun p => synHit normalized p.2) with
    | some p => some p.1
    | none => none

/-! ## Cell values, records, extraction -/

/-- Scalar cell/record values of the embedding: Python strings and floats
(floats modelled as exact rationals) plus `None`. -/
inductive PyVal where
  | vnone
  | s (str : String)
  | n (q : Rat)
deriving DecidableEq, Repr

/-- Python truthiness of a value. -/
def pyTruthy : PyVal → Bool
  | .vnone => false
  | .s str => str ≠ ""
  | .n q => q ≠ 0

/-- Python truthiness of `dict.get`'s result. -/
def pyTruthyO : Option PyVal → Bool
  | none => false
  | some v => pyTruthy v

/-- A record is a Python dict: an association list with unique keys. -/
abbrev Record := List (String × PyVal)

/-- `dict.get` (keys are unique, so first-entry lookup is dict lookup). -/
def recGet : Record → String → Option PyVal
  | [], _ => none
  | (k1, v1) :: rest, k => if k1 = k then some v1 else recGet rest k

/-- `dict[k] = v`: overwrite in place, else append. -/
def recSet : Record → String → PyVal → Record
  | [], k, v => [(k, v)]
  | (k1, v1) :: rest, k, v =>
    if k1 = k then (k1, v) :: rest else (k1, v1) :: recSet rest k v

/-- `del dict[k]`. -/
def recErase (r : Record) (k : String) : Record := r.filter (fun p => p.1 ≠ k)

/-- Python `str()` of a float, for the integral floats arising in workbooks
(`str(62210.0) == "62210.0"`); non-integral rationals take the `Rat`
printer — no proved statement depends on that case. -/
def ratRepr (q : Rat) : String :=
  if q.den = 1 then toString q.num ++ ".0" else toString q

/-- Python `str()` of a scalar value. -/
def pyStr : PyVal → String
  | .vnone => "None"
  | .s str => str
  | .n q => ratRepr q

/-- A worksheet cell: `none` is an empty cell (pandas NaN). -/
abbrev Cell := Option PyVal

/-- `pd.isna` on a cell. -/
def cellNa : Cell → Bool
  | none => true
  | some .vnone => true
  | some (.s _) => false
  | some (.n _) => false

/-- `str(cell)` (NaN prints as `"nan"`, relevant to `_count_header_matches`
which omits the isna guard). -/
def cellStr : Cell → String
  | none => "nan"
  | some v => pyStr v

/-- `str(cell) if not pd.isna(cell) else ''`. -/
def cellStrNa (c : Cell) : String := if cellNa c then "" else cellStr c

/-- `NumberUnitParser.parse` on a cell: the `None`/NaN branch, the numeric
branch, and the string branch (`context_hint` is never read by `parse`). -/
def parseCell : Cell → NumberWithUnit
  | none => ⟨none, none, ""⟩
  | some .vnone => ⟨none, none, ""⟩
  | some (.n q) => ⟨some q, none, ratRepr q⟩
  | some (.s str) => parseString str

/-- The `text_fields` list of `DataExtractor._process_row`. -/
def textFields : List String :=
  ["tenant_name", "unit_id", "status", "usage_type", "lease_type",
   "contract_id", "contractual_partner", "sap_object_number", "composite_unit_id",
   "mo_number", "business_unit", "business_unit_code", "bookkeeping_area"]

/-- Field storage of `_process_row`: unit triads, text fields, numeric
fields with text fallback. -/
def storeField (acc : Record) (canonical : String) (cell : Cell) : Record :=
  let parsed := parseCell cell
  match parsed.unit with
  | some u =>
    let acc1 := recSet acc (canonical ++ "_value")
      (match parsed.value with | some q => .n q | none => .vnone)
    let acc2 := recSet acc1 (canonical ++ "_unit") (.s u)
    recSet acc2 (canonical ++ "_original") (.s parsed.original_text)
  | none =>
    if textFields.contains canonical then
      recSet acc canonical (.s (pyStripS parsed.original_text))
    else
      match parsed.value with
      | some q => recSet acc canonical (.n q)
      | none =>
        if parsed.original_text ≠ "" then recSet acc canonical (.s parsed.original_text)
        else acc

/-- The column loop of `_process_row`. -/
def processColsAux (row : List Cell) : List (Option String) → Nat → Record → Record
  | [], _, acc => acc
  | none :: ms, i, acc => processColsAux row ms (i + 1) acc
  | some canonical :: ms, i, acc =>
    let acc2 :=
      match row.get? i with
      | some cell => storeField acc canonical cell
      | none => acc
    processColsAux row ms (i + 1) acc2

/-- `DataExtractor._process_row`. -/
def processRow (row : List Cell) (mapped : List (Option String)) : Record :=
  processColsAux row mapped 0 []

/-- The `meaningful_fields` list of `_has_meaningful_data`. -/
def meaningfulFields : List String :=
  ["tenant_name", "unit_id", "monthly_rent_value", "annual_rent_value",
   "area_sqm_value", "area_sqft_value",
   "contractual_partner", "contract_id", "sap_object_number",
   "mo_number", "bookkeeping_area"]

/-- `record.get(f) not in [None, '', 0]`. -/
def meaningfulVal : Option PyVal → Bool
  | none => false
  | some .vnone => false
  | some (.s str) => str ≠ ""
  | some (.n q) => q ≠ 0

/-- `DataExtractor._has_meaningful_data`. -/
def hasMeaningfulData (r : Record) : Bool :=
  meaningfulFields.any (fun f => meaningfulVal (recGet r f))

/-- `DataExtractor.SUMMARY_KEYWORDS`. -/
def SUMMARY_KEYWORDS : List String :=
  ["total", "totals", "gesamt", "summe", "ergebnis",
   "total général", "totale", "totaal", "razem", "totalt",
   "grand total", "subtotal", "zwischensumme",
   "vacant", "vacancy", "leerstand"]

/-- `DataExtractor._is_summary_row` applied to the first cell's text. -/
def isSummaryCell (firstCell : String) : Bool :=
  let cl := pyStrip (firstCell.data.map Char.toLower)
  SUMMARY_KEYWORDS.any (fun kw => containsSeq kw.data cl)

/-- `str(row.iloc[0]) if not pd.isna(row.iloc[0]) else ''` (a pandas row is
never empty; the `[]` case is a model default). -/
def firstCellStr (row : List Cell) : String :=
  match row.head? with
  | some c => cellStrNa c
  | none => ""

/-- The blank-row test of `extract_data`: all cells NaN, or every non-NaN
cell's text strips to the empty string. -/
def isBlankRow (row : List Cell) : Bool :=
  row.all cellNa
    || row.all (fun c => cellNa c || pyStrip (cellStr c).data = [])

/-- The row loop of `DataExtractor.extract_data`: stop at a summary first
cell, skip blank rows, keep meaningful records stamped with the 1-indexed
source row. -/
def extractRows (mapped : List (Option String)) : List (List Cell) → Nat → List Record
  | [], _ => []
  | row :: rest, i =>
    if isSummaryCell (firstCellStr row) then []
    else if isBlankRow row then extractRows mapped rest (i + 1)
    else
      let record := processRow row mapped
      if hasMeaningfulData record then
        recSet record "_source_row" (.n ((i : Rat) + 1)) :: extractRows mapped rest (i + 1)
      else extractRows mapped rest (i + 1)

/-- `DataExtractor.extract_data`. -/
def extractData (grid : List (List Cell)) (headerRow : Nat) (rawHeaders : List String) :
    List Record :=
  extractRows (rawHeaders.map mapHeader) (grid.drop (headerRow + 1)) (headerRow + 1)

/-! ## HeaderDetector, SheetSelector, orchestrator -/

/-- `[str(cell) if not pd.isna(cell) else '' for cell in row]`. -/
def rowHeaderStrs (row : List Cell) : List String := row.map cellStrNa

/-- Count of recognized headers in a row (`map_header` returns nonempty
canonical names, so Python truthiness is `isSome`). -/
def headerScore (row : List Cell) : Nat :=
  (rowHeaderStrs row).countP (fun h => (mapHeader h).isSome)

/-- The row loop of `HeaderDetector.find_header_row` (max 30 rows, strict
improvement, final threshold of 2). -/
def fhrAux : List (List Cell) → Nat → Nat → Option (Nat × List String) →
    Option (Nat × List String)
  | [], _, bestScore, best => if 2 ≤ bestScore then best else none
  | row :: rest, i, bestScore, best =>
    if 30 ≤ i then (if 2 ≤ bestScore then best else none)
    else
      let sc := headerScore row
      if bestScore < sc then fhrAux rest (i + 1) sc (some (i, rowHeaderStrs row))
      else fhrAux rest (i + 1) bestScore best

/-- `HeaderDetector.find_header_row`. -/
def findHeaderRow (grid : List (List Cell)) : Option (Nat × List String) :=
  fhrAux grid 0 0 none

/-- Per-column combination of `handle_multi_level_headers`. -/
def combineHeaderCells (pv cv : String) : String :=
  if pv ≠ "" && cv ≠ "" then pv ++ " " ++ cv
  else if cv ≠ "" then cv else pv

/-- `HeaderDetector.handle_multi_level_headers`. -/
def multiLevelHeaders (grid : List (List Cell)) (hr : Nat) : List String :=
  if hr = 0 then rowHeaderStrs (grid.getD 0 [])
  else
    let prev := grid.getD (hr - 1) []
    let curr := grid.getD hr []
    (List.range curr.length).map (fun i =>
      combineHeaderCells (cellStrNa (prev.getD i none)) (cellStrNa (curr.getD i none)))

/-- A worksheet grid. -/
abbrev Grid := List (List Cell)

/-- A sheet as the orchestrator sees it: reading it either yields a grid or
raises (modelled as `Except`, caught per sheet). -/
abbrev SheetData := Except String Grid

/-- `SheetSelector.SKIP_KEYWORDS`. -/
def SKIP_KEYWORDS : List String :=
  ["summary", "total", "totals", "zusammenfassung", "übersicht",
   "notes", "notizen", "hinweise", "instructions", "anleitung",
   "index", "inhaltsverzeichnis", "cover", "deckblatt",
   "template", "vorlage", "example", "beispiel"]

/-- `SheetSelector.SHEET_KEYWORDS`. -/
def SHEET_KEYWORDS : List String :=
  ["rent roll", "rentroll", "rent_roll",
   "mieterliste", "mieter", "mieterübersicht",
   "tenancy", "tenant", "tenants",
   "état locatif", "locataire",
   "elenco locatari", "inquilini",
   "huurderslijst", "huurders",
   "lista najemców", "najemcy",
   "hyresgäster", "hyresförteckning",
   "stacking plan", "schedule"]

/-- `SheetSelector.should_skip_sheet`. -/
def shouldSkipSheet (name : String) : Bool :=
  let nl := pyStrip (name.data.map Char.toLower)
  SKIP_KEYWORDS.any (fun kw => containsSeq kw.data nl)

/-- `SheetSelector.is_likely_rent_roll`. -/
def isLikelyRentRoll (name : String) : Bool :=
  let nl := pyStrip (name.data.map Char.toLower)
  SHEET_KEYWORDS.any (fun kw => containsSeq kw.data nl)

/-- `SheetSelector._count_header_matches` (no isna guard: NaN cells print
as `"nan"`, which maps to no canonical tag). -/
def countHeaderMatches (grid : Grid) : Nat :=
  ((grid.take 30).map (fun row => row.countP (fun c => (mapHeader (cellStr c)).isSome))).sum

/-- `SheetSelector.get_all_data_sheets` (a sheet whose read raises is
silently not counted, per the `except: pass`). -/
def getAllDataSheets (wb : List (String × SheetData)) : List String :=
  let ds := (wb.filter (fun p =>
      !shouldSkipSheet p.1 &&
        (match p.2 with
         | .ok g => 0 < countHeaderMatches (g.take 30)
         | .error _ => false))).map Prod.fst
  if !ds.isEmpty then ds
  else
    let ns := (wb.filter (fun p => !shouldSkipSheet p.1)).map Prod.fst
    if !ns.isEmpty then ns else (wb.map Prod.fst).take 1

/-- The scoring loop of `SheetSelector.select_best_sheet`. -/
def sbsAux : List (String × SheetData) → Int → Option String → Option String
  | [], _, best => best
  | (nm, sd) :: rest, bestScore, best =>
    if shouldSkipSheet nm then sbsAux rest bestScore best
    else
      let sc : Int := (if isLikelyRentRoll nm then 10 else 0) +
        (match sd with
         | .ok g => (countHeaderMatches (g.take 30) : Int)
         | .error _ => 0)
      if bestScore < sc then sbsAux rest sc (some nm) else sbsAux rest bestScore best

/-- `SheetSelector.select_best_sheet` (`best_sheet or sheet_names[0]`; an
empty workbook is modelled as `none` — pandas cannot produce one). -/
def selectBestSheet (wb : List (String × SheetData)) : Option String :=
  if wb.length = 1 then (wb.map Prod.fst).head?
  else
    match sbsAux wb (-1) none with
    | some s => some s
    | none => (wb.map Prod.fst).head?

/-- The warning for an undetectable header row, naming the sheet. -/
def hdrWarning (name : String) : String :=
  "Sheet " ++ aposS ++ name ++ aposS ++ ": Could not detect header row"

/-- The warning for a per-sheet exception, naming the sheet. -/
def errWarning (name msg : String) : String :=
  "Sheet " ++ aposS ++ name ++ aposS ++ ": Error - " ++ msg

/-- Provenance stamping of `read_excel`'s sheet loop. -/
def stampRecord (fname sheet ts : String) (r : Record) : Record :=
  recSet (recSet (recSet r "_source_file" (.s fname)) "_source_sheet" (.s sheet))
    "_extraction_timestamp" (.s ts)

/-- One iteration of `read_excel`'s sheet loop: records, warnings, and the
`sheets_processed` increment. -/
def processSheet (fname ts name : String) : SheetData → List Record × List String × Nat
  | .error e => ([], [errWarning name e], 0)
  | .ok grid =>
    match findHeaderRow grid with
    | none => ([], [hdrWarning name], 0)
    | some (hr, raw) =>
      let headers := if 0 < hr then multiLevelHeaders grid hr else raw
      ((extractData grid hr headers).map (stampRecord fname name ts), [], 1)

/-- The whole sheet loop of `read_excel`. -/
def processAllSheets (fname ts : String) :
    List (String × SheetData) → List Record × List String × Nat
  | [] => ([], [], 0)
  | (nm, sd) :: rest =>
    let x := processSheet fname ts nm sd
    let y := processAllSheets fname ts rest
    (x.1 ++ y.1, x.2.1 ++ y.2.1, x.2.2 + y.2.2)

/-- A sheet fails in the loop's sense: reading it raises, or no header row
is detectable. -/
def sheetFailsB : SheetData → Bool
  | .error _ => true
  | .ok g => (findHeaderRow g).isNone

/-- The single warning a failing sheet contributes, naming the sheet. -/
def failWarning (name : String) : SheetData → String
  | .error e => errWarning name e
  | .ok _ => hdrWarning name

/-! ## IdentityResolver -/

/-- Python `int(float(q))`: truncation toward zero. -/
def pyIntTrunc (q : Rat) : Int := if q < 0 then -((-q).floor) else q.floor

/-- `str(int(float(q)))`. -/
def intStr (q : Rat) : String := toString (pyIntTrunc q)

/-- `re.sub(r'\.0+$', '', ·)`: strip a trailing dot-then-zeros suffix. -/
def stripDotZeros (cs : List Char) : List Char :=
  let r := cs.reverse
  let zs := r.takeWhile (fun c => c = '0')
  let rest := r.dropWhile (fun c => c = '0')
  if !zs.isEmpty && rest.head? = some '.' then (rest.drop 1).reverse else cs

/-- `RentRollExcelReader._is_phone_number`. -/
def isPhoneNumber (s : String) : Bool :=
  if s = "" then false
  else
    let cleaned := s.data.filter (fun c => !(c.isWhitespace || c = '-'))
    match cleaned with
    | '+' :: _ => 9 ≤ (cleaned.filter Char.isDigit).length
    | '0' :: d :: _ => ('1' ≤ d && d ≤ '9') && 9 ≤ (cleaned.filter Char.isDigit).length
    | _ => false

/-- The `num_str` computed by the tenant-resolution try block, when the
branch applies. -/
def numericIdCandidate : PyVal → Option String
  | .s str => some (String.mk (stripDotZeros (pyStrip str.data)))
  | .n q => some (String.mk (stripDotZeros (intStr q).data))
  | .vnone => none

/-- Tenant disambiguation of `_resolve_tenant_and_unit`: a purely numeric
name that is not phone-shaped moves to `tenant_id`. -/
def tenantStep (r : Record) : Record :=
  match recGet r "tenant_name" with
  | none => r
  | some v =>
    if v = .s "" then r
    else
      match numericIdCandidate v with
      | none => r
      | some t =>
        if t ≠ "" && t.data.all Char.isDigit && !isPhoneNumber t then
          recErase (recSet r "tenant_id" (.s t)) "tenant_name"
        else r

/-- Contractual-partner fallback of `_resolve_tenant_and_unit`. -/
def partnerStep (r : Record) : Record :=
  if !pyTruthyO (recGet r "tenant_name") && !pyTruthyO (recGet r "tenant_id") then
    match recGet r "contractual_partner" with
    | some p => if pyTruthy p then recSet r "tenant_name" p else r
    | none => r
  else r

/-- `record.get(k)` filtered through an `if part:` truthiness check. -/
def truthyGet (r : Record) (k : String) : Option PyVal :=
  match recGet r k with
  | some v => if pyTruthy v then some v else none
  | none => none

/-- `str(int(float(part)))` for floats, `str(part).strip()` otherwise. -/
def partToStr : PyVal → String
  | .n q => intStr q
  | .s str => String.mk (pyStrip str.data)
  | .vnone => "None"

/-- Unit-identifier resolution of `_resolve_tenant_and_unit`. -/
def unitStep (r : Record) : Record :=
  if pyTruthyO (recGet r "unit_id") then r
  else
    match truthyGet r "composite_unit_id" with
    | some c => recSet r "unit_id" c
    | none =>
      match truthyGet r "sap_object_number" with
      | some sapObj => recSet r "unit_id" sapObj
      | none =>
        match truthyGet r "contract_id" with
        | some ct => recSet r "unit_id" ct
        | none =>
          let parts :=
            ([truthyGet r "bookkeeping_area",
              (match truthyGet r "business_unit" with
               | some v => some v
               | none => truthyGet r "business_unit_code"),
              truthyGet r "mo_number"].filterMap id).map partToStr
          if !parts.isEmpty then recSet r "unit_id" (.s (String.intercalate "-" parts))
          else r

/-- Asset-id fallback of `_resolve_tenant_and_unit`. -/
def assetStep (r : Record) : Record :=
  if pyTruthyO (recGet r "sap_object_number") && !pyTruthyO (recGet r "asset_id") then
    match recGet r "sap_object_number" with
    | some v => recSet r "asset_id" v
    | none => r
  else r

/-- `_resolve_tenant_and_unit` on one record. -/
def resolveRecord (r : Record) : Record := assetStep (unitStep (partnerStep (tenantStep r)))

/-! ## Orchestrator result and DataValidator -/

/-- `ExtractionResult` (the informational `metadata` dict and language
detection are not modelled; no claim concerns them). -/
structure ExtractionResult where
  success : Bool
  data : List Record
  message : String
  warnings : List String
  sheetsProcessed : Nat
  totalRowsExtracted : Nat
deriving DecidableEq, Repr

/-- `pd.read_excel(excel_file, sheet_name=nm)` by name. -/
def lookupSheet (wb : List (String × SheetData)) (nm : String) : SheetData :=
  match wb.find? (fun p => p.1 = nm) with
  | some p => p.2
  | none => .error "sheet not found"

/-- `RentRollExcelReader.read_excel` for an already-opened workbook. -/
def readExcelModel (fname ts : String) (wb : List (String × SheetData))
    (allSheets : Bool) : ExtractionResult :=
  let stp := if allSheets then getAllDataSheets wb
             else (match selectBestSheet wb with | some s => [s] | none => [])
  if stp.isEmpty then
    ⟨false, [], "No suitable sheets found in Excel file",
      ["Could not identify any rent roll sheets"], 0, 0⟩
  else
    let res := processAllSheets fname ts (stp.map (fun nm => (nm, lookupSheet wb nm)))
    let resolved := res.1.map resolveRecord
    ⟨!resolved.isEmpty, resolved,
      "Extracted " ++ toString resolved.length ++ " records from "
        ++ toString res.2.2 ++ " sheet(s)",
      res.2.1, res.2.2, resolved.length⟩

/-- `ValidationError` dataclass of the source (a validation finding). -/
structure ValidationIssue where
  severity : String
  row_index : Nat
  field : String
  message : String
  value : Option PyVal
deriving DecidableEq, Repr

/-- Fields covered by the large-value check. -/
def largeValFields : List String :=
  ["monthly_rent_value", "annual_rent_value", "area_sqm_value", "area_sqft_value"]

/-- Identifier completeness check of `DataValidator.validate`. -/
def checkIdentifiers (idx : Nat) (r : Record) : List ValidationIssue :=
  if !pyTruthyO (recGet r "tenant_name") && !pyTruthyO (recGet r "tenant_id")
      && !pyTruthyO (recGet r "unit_id") && !pyTruthyO (recGet r "contract_id")
      && !pyTruthyO (recGet r "asset_id") then
    [⟨"warning", idx, "tenant/unit identifiers",
      "Missing tenant and unit identifiers (tenant_name, tenant_id, unit_id, contract_id, asset_id)",
      none⟩]
  else []

/-- Negative-rent check (the stored value at this key is a float or `None`
by construction of `_process_row`, never a string). -/
def checkNegativeRent (idx : Nat) (r : Record) : List ValidationIssue :=
  match recGet r "monthly_rent_value" with
  | some (.n q) =>
    if q < 0 then
      [⟨"warning", idx, "monthly_rent_value", "Negative rent value detected", some (.n q)⟩]
    else []
  | _ => []

/-- Large-value check: `if val and val > 1e9`. -/
def checkLargeValues (idx : Nat) (r : Record) : List ValidationIssue :=
  largeValFields.filterMap (fun f =>
    match recGet r f with
    | some (.n q) =>
      if q ≠ 0 && (10 ^ 9 : Rat) < q then
        some ⟨"warning", idx, f, "Unusually large value detected: " ++ ratRepr q, some (.n q)⟩
      else none
    | _ => none)

/-- All checks for one record. -/
def validateRecordChecks (idx : Nat) (r : Record) : List ValidationIssue :=
  checkIdentifiers idx r ++ checkNegativeRent idx r ++ checkLargeValues idx r

/-- The record loop of `DataValidator.validate`, threading the record list
through explicitly (the Python list is shared state the loop could mutate). -/
def validateAux : Nat → List Record → List Record × List ValidationIssue
  | _, [] => ([], [])
  | idx, r :: rest =>
    let issues := validateRecordChecks idx r
    let rec2 := validateAux (idx + 1) rest
    (r :: rec2.1, issues ++ rec2.2)

/-- `DataValidator.validate`: returns the (threaded) records and findings. -/
def validate (records : List Record) : List Record × List ValidationIssue :=
  validateAux 0 records

/-! ## Character-class and string lemmas -/

theorem numChar_of_digit {c : Char} (h : c.isDigit = true) : isNumChar c = true := by
  simp [isNumChar, h]

theorem digit_ne {c d : Char} (h : c.isDigit = true) (hd : d.isDigit = false) : c ≠ d := by
  intro he; subst he; rw [h] at hd; exact absurd hd (by decide)

theorem not_ws_of_numChar {c : Char} (h : isNumChar c = true) : c.isWhitespace = false := by
  have h1 : c ≠ ' ' := fun he => by subst he; exact absurd h (by decide)
  have h2 : c ≠ '\t' := fun he => by subst he; exact absurd h (by decide)
  have h3 : c ≠ '\x0d' := fun he => by subst he; exact absurd h (by decide)
  have h4 : c ≠ '\n' := fun he => by subst he; exact absurd h (by decide)
  simp [Char.isWhitespace, h1, h2, h3, h4]

theorem numChar_ne_lparen {c : Char} (h : isNumChar c = true) : c ≠ '(' := by
  intro he; subst he; exact absurd h (by decide)

theorem numChar_ne_minus {c : Char} (h : isNumChar c = true) : c ≠ '-' := by
  intro he; subst he; exact absurd h (by decide)

theorem numChar_ne_uminus {c : Char} (h : isNumChar c = true) : c ≠ '−' := by
  intro he; subst he; exact absurd h (by decide)

theorem dropWhile_eq_self_of {p : Char → Bool} {cs : List Char}
    (h : ∀ c ∈ cs, p c = false) : cs.dropWhile p = cs := by
  cases cs with
  | nil => rfl
  | cons a l => rw [List.dropWhile_cons, h a (by simp)]; simp

theorem pyStrip_eq_self {cs : List Char} (h : ∀ c ∈ cs, c.isWhitespace = false) :
    pyStrip cs = cs := by
  unfold pyStrip
  rw [dropWhile_eq_self_of h,
    dropWhile_eq_self_of (fun c hc => h c (List.mem_reverse.mp hc)),
    List.reverse_reverse]

theorem splitSign_of_numChar {cs : List Char} (h : cs.all isNumChar = true) :
    splitSign cs = (false, cs) := by
  cases cs with
  | nil => rfl
  | cons c rest =>
    have hc : isNumChar c = true := by
      have := List.all_eq_true.mp h c (by simp)
      simpa using this
    have hpm : parenMatch (c :: rest) = none := by
      simp [parenMatch, numChar_ne_lparen hc]
    unfold splitSign
    rw [hpm]
    simp [numChar_ne_minus hc, numChar_ne_uminus hc]

theorem hasChar_eq_false {cs : List Char} {c : Char} (h : ∀ x ∈ cs, x ≠ c) :
    hasChar cs c = false := by
  simp only [hasChar, Bool.eq_false_iff, ne_eq, List.any_eq_true, decide_eq_true_eq]
  rintro ⟨x, hx, rfl⟩
  exact h x hx rfl

theorem hasChar_append {a b : List Char} {c : Char} :
    hasChar (a ++ b) c = (hasChar a c || hasChar b c) := by
  simp [hasChar]

theorem hasChar_cons_self {cs : List Char} {c : Char} : hasChar (c :: cs) c = true := by
  simp [hasChar]

theorem splitOnChar_not_mem {sep : Char} {cs : List Char} (h : ∀ x ∈ cs, x ≠ sep) :
    splitOnChar sep cs = [cs] := by
  induction cs with
  | nil => rfl
  | cons c rest ih =>
    have hrest := ih (fun x hx => h x (by simp [hx]))
    simp [splitOnChar, hrest, h c (by simp)]

theorem splitOnChar_append {sep : Char} {a b : List Char} (h : ∀ x ∈ a, x ≠ sep) :
    splitOnChar sep (a ++ sep :: b) = a :: splitOnChar sep b := by
  induction a with
  | nil => simp [splitOnChar]
  | cons c a' ih =>
    have ha' := ih (fun x hx => h x (by simp [hx]))
    simp only [List.cons_append, splitOnChar, List.append_eq]
    rw [ha']
    simp [h c (by simp)]

theorem lastIdxAux_append_some {c : Char} {ys : List Char} {j : Nat}
    (h : lastIdxAux c ys = some j) (xs : List Char) :
    lastIdxAux c (xs ++ ys) = some (xs.length + j) := by
  induction xs with
  | nil => simpa using h
  | cons x xs ih =>
    show (match lastIdxAux c (xs ++ ys) with
      | some i => some (i + 1)
      | none => if x = c then some 0 else none) = some ((x :: xs).length + j)
    rw [ih]
    simp
    omega

theorem lastIdxAux_append_none {c : Char} {ys : List Char}
    (h : lastIdxAux c ys = none) (xs : List Char) :
    lastIdxAux c (xs ++ ys) = lastIdxAux c xs := by
  induction xs with
  | nil => simpa using h
  | cons x xs ih =>
    show (match lastIdxAux c (xs ++ ys) with
      | some i => some (i + 1)
      | none => if x = c then some 0 else none) = lastIdxAux c (x :: xs)
    rw [ih]
    rfl

theorem lastIdxAux_not_mem {c : Char} {cs : List Char} (h : ∀ x ∈ cs, x ≠ c) :
    lastIdxAux c cs = none := by
  induction cs with
  | nil => rfl
  | cons x xs ih =>
    simp [lastIdxAux, ih (fun y hy => h y (by simp [hy])), h x (by simp)]

theorem map_eq_self_of {f : Char → Char} {cs : List Char} (h : ∀ x ∈ cs, f x = x) :
    cs.map f = cs := by
  induction cs with
  | nil => rfl
  | cons c rest ih => simp [h c (by simp), ih (fun x hx => h x (by simp [hx]))]

/-- All-digit hypotheses give pointwise disequality from any non-digit. -/
theorem digits_ne {ds : List Char} (h : ds.all Char.isDigit = true) {c : Char}
    (hc : c.isDigit = false) : ∀ x ∈ ds, x ≠ c := by
  intro x hx
  exact digit_ne (by simpa using List.all_eq_true.mp h x hx) hc

theorem floatVal_digits {ds : List Char} (h : ds.all Char.isDigit = true) (hne : ds ≠ []) :
    floatVal ds = some (digitsToNat ds) := by
  have hdig : ∀ x ∈ ds, x.isDigit = true := fun x hx => by
    simpa using List.all_eq_true.mp h x hx
  have hguard1 : ds.all (fun c => c.isDigit || c = '.') = true :=
    List.all_eq_true.mpr (fun x hx => by simp [hdig x hx])
  have hcount : ds.count '.' = 0 :=
    List.count_eq_zero.mpr (fun hmem => (digits_ne h (by decide) '.' hmem) rfl)
  have hany : ds.any (fun c => c.isDigit) = true := by
    rcases ds with _ | ⟨d, ds'⟩
    · exact absurd rfl hne
    · have := hdig d (by simp)
      simp [List.any_cons, this]
  unfold floatVal
  rw [splitOnChar_not_mem (digits_ne h (by decide))]
  simp [hguard1, hcount, hany]

theorem floatVal_dec {a b : List Char} (ha : a.all Char.isDigit = true)
    (hb : b.all Char.isDigit = true) (hne : a ++ b ≠ []) :
    floatVal (a ++ '.' :: b) =
      some ((digitsToNat a : Rat) + (digitsToNat b : Rat) / (10 : Rat) ^ b.length) := by
  have hguard1 : (a ++ '.' :: b).all (fun c => c.isDigit || c = '.') = true := by
    rw [List.all_eq_true]
    intro x hx
    rcases List.mem_append.mp hx with hxa | hxb
    · simp [List.all_eq_true.mp (by simpa using ha) x hxa]
    · rcases List.mem_cons.mp hxb with rfl | hxb'
      · simp
      · simp [List.all_eq_true.mp (by simpa using hb) x hxb']
  have hca : a.count '.' = 0 :=
    List.count_eq_zero.mpr (fun hmem => (digits_ne ha (by decide) '.' hmem) rfl)
  have hcb : b.count '.' = 0 :=
    List.count_eq_zero.mpr (fun hmem => (digits_ne hb (by decide) '.' hmem) rfl)
  have hcount : (a ++ '.' :: b).count '.' = 1 := by
    rw [List.count_append, List.count_cons]
    simp [hca, hcb]
  have hany : (a ++ '.' :: b).any (fun c => c.isDigit) = true := by
    rcases a with _ | ⟨d, a'⟩
    · rcases b with _ | ⟨e, b'⟩
      · exact absurd rfl hne
      · simp only [List.nil_append, List.any_cons]
        have : e.isDigit = true := by simpa using List.all_eq_true.mp hb e (by simp)
        simp [this]
    · simp only [List.cons_append, List.any_cons]
      have : d.isDigit = true := by simpa using List.all_eq_true.mp ha d (by simp)
      simp [this]
  unfold floatVal
  rw [splitOnChar_append (digits_ne ha (by decide)),
    splitOnChar_not_mem (digits_ne hb (by decide))]
  simp [hguard1, hcount, hany]

theorem hasChar_of_mem {cs : List Char} {c : Char} (h : c ∈ cs) : hasChar cs c = true := by
  simp only [hasChar, List.any_eq_true, decide_eq_true_eq]
  exact ⟨c, h, rfl⟩

theorem no_char_append_cons {a b : List Char} {s c : Char}
    (ha : ∀ x ∈ a, x ≠ c) (hs : s ≠ c) (hb : ∀ x ∈ b, x ≠ c) :
    ∀ x ∈ a ++ s :: b, x ≠ c := by
  intro x hx
  rcases List.mem_append.mp hx with hxa | hxb
  · exact ha x hxa
  · rcases List.mem_cons.mp hxb with rfl | hxb'
    · exact hs
    · exact hb x hxb'

theorem all_numChar_of_digits {ds : List Char} (h : ds.all Char.isDigit = true) :
    ds.all isNumChar = true :=
  List.all_eq_true.mpr fun x hx => by
    simp [numChar_of_digit (by simpa using List.all_eq_true.mp h x hx)]

theorem all_numChar_append_cons {a b : List Char} {s : Char}
    (ha : a.all isNumChar = true) (hs : isNumChar s = true) (hb : b.all isNumChar = true) :
    (a ++ s :: b).all isNumChar = true := by
  simp [List.all_append, List.all_cons, ha, hs, hb]

theorem filter_ne_self {ds : List Char} {c : Char} (h : ∀ x ∈ ds, x ≠ c) :
    ds.filter (fun x => x ≠ c) = ds :=
  List.filter_eq_self.mpr fun x hx => by simp [h x hx]

theorem map_commaToDot_of {ds : List Char} (h : ∀ x ∈ ds, x ≠ ',') :
    ds.map (fun c => if c = ',' then '.' else c) = ds :=
  map_eq_self_of fun x hx => by simp [h x hx]

theorem lastIdxAux_cons_none {c : Char} {rest : List Char}
    (h : lastIdxAux c rest = none) : lastIdxAux c (c :: rest) = some 0 := by
  simp [lastIdxAux, h]

theorem rfind_eq {c : Char} {cs : List Char} {k : Nat} (h : lastIdxAux c cs = some k) :
    rfind c cs = (k : Int) := by
  simp [rfind, h]

/-! ### `resolveSeps` on the locale shapes of the specification -/

theorem resolveSeps_digits {ds : List Char} (h : ds.all Char.isDigit = true) :
    resolveSeps ds = ds := by
  have h1 : hasChar ds ',' = false := hasChar_eq_false (digits_ne h (by decide))
  have h2 : hasChar ds '.' = false := hasChar_eq_false (digits_ne h (by decide))
  unfold resolveSeps
  simp [h1, h2]

theorem resolveSeps_comma3 {a b : List Char} (ha : a.all Char.isDigit = true)
    (hb : b.all Char.isDigit = true) (hb3 : b.length = 3) :
    resolveSeps (a ++ ',' :: b) = a ++ b := by
  have hna : ∀ x ∈ a, x ≠ ',' := digits_ne ha (by decide)
  have hnb : ∀ x ∈ b, x ≠ ',' := digits_ne hb (by decide)
  have hcomma : hasChar (a ++ ',' :: b) ',' = true := hasChar_of_mem (by simp)
  have hdot : hasChar (a ++ ',' :: b) '.' = false :=
    hasChar_eq_false (no_char_append_cons (digits_ne ha (by decide)) (by decide)
      (digits_ne hb (by decide)))
  have hsplit : splitOnChar ',' (a ++ ',' :: b) = [a, b] := by
    rw [splitOnChar_append hna, splitOnChar_not_mem hnb]
  have hfa : List.filter (fun c => !decide (c = ',')) a = a :=
    List.filter_eq_self.mpr fun x hx => by simp [hna x hx]
  have hfb : List.filter (fun c => !decide (c = ',')) b = b :=
    List.filter_eq_self.mpr fun x hx => by simp [hnb x hx]
  unfold resolveSeps
  simp [hcomma, hdot, hsplit, hb3]
  rw [hfa, hfb]

theorem resolveSeps_commaDec {a b : List Char} (ha : a.all Char.isDigit = true)
    (hb : b.all Char.isDigit = true) (hb2 : b.length ≤ 2) :
    resolveSeps (a ++ ',' :: b) = a ++ '.' :: b := by
  have hna : ∀ x ∈ a, x ≠ ',' := digits_ne ha (by decide)
  have hnb : ∀ x ∈ b, x ≠ ',' := digits_ne hb (by decide)
  have hcomma : hasChar (a ++ ',' :: b) ',' = true := hasChar_of_mem (by simp)
  have hdot : hasChar (a ++ ',' :: b) '.' = false :=
    hasChar_eq_false (no_char_append_cons (digits_ne ha (by decide)) (by decide)
      (digits_ne hb (by decide)))
  have hsplit : splitOnChar ',' (a ++ ',' :: b) = [a, b] := by
    rw [splitOnChar_append hna, splitOnChar_not_mem hnb]
  have hb3 : ¬(b.length = 3) := by omega
  have hma : a.map (fun c => if c = ',' then '.' else c) = a := map_commaToDot_of hna
  have hmb : b.map (fun c => if c = ',' then '.' else c) = b := map_commaToDot_of hnb
  have hmap : (a ++ ',' :: b).map (fun c => if c = ',' then '.' else c) = a ++ '.' :: b := by
    rw [List.map_append, List.map_cons, hma, hmb]
    simp
  unfold resolveSeps
  simp [hcomma, hdot, hsplit, hb3, hb2, hma, hmb]

theorem resolveSeps_twoCommas {a b c : List Char} (ha : a.all Char.isDigit = true)
    (hb : b.all Char.isDigit = true) (hc : c.all Char.isDigit = true) :
    resolveSeps (a ++ ',' :: (b ++ ',' :: c)) = a ++ (b ++ c) := by
  have hna : ∀ x ∈ a, x ≠ ',' := digits_ne ha (by decide)
  have hnb : ∀ x ∈ b, x ≠ ',' := digits_ne hb (by decide)
  have hnc : ∀ x ∈ c, x ≠ ',' := digits_ne hc (by decide)
  have hcomma : hasChar (a ++ ',' :: (b ++ ',' :: c)) ',' = true := hasChar_of_mem (by simp)
  have hdot : hasChar (a ++ ',' :: (b ++ ',' :: c)) '.' = false :=
    hasChar_eq_false (no_char_append_cons (digits_ne ha (by decide)) (by decide)
      (no_char_append_cons (digits_ne hb (by decide)) (by decide) (digits_ne hc (by decide))))
  have hsplit : splitOnChar ',' (a ++ ',' :: (b ++ ',' :: c)) = [a, b, c] := by
    rw [splitOnChar_append hna, splitOnChar_append hnb, splitOnChar_not_mem hnc]
  have hfa : List.filter (fun x => !decide (x = ',')) a = a :=
    List.filter_eq_self.mpr fun x hx => by simp [hna x hx]
  have hfb : List.filter (fun x => !decide (x = ',')) b = b :=
    List.filter_eq_self.mpr fun x hx => by simp [hnb x hx]
  have hfc : List.filter (fun x => !decide (x = ',')) c = c :=
    List.filter_eq_self.mpr fun x hx => by simp [hnc x hx]
  unfold resolveSeps
  simp [hcomma, hdot, hsplit]
  rw [hfa, hfb, hfc]

theorem resolveSeps_dot3 {a b : List Char} (ha : a.all Char.isDigit = true)
    (hb : b.all Char.isDigit = true) (hb3 : b.length = 3) :
    resolveSeps (a ++ '.' :: b) = a ++ b := by
  have hna : ∀ x ∈ a, x ≠ '.' := digits_ne ha (by decide)
  have hnb : ∀ x ∈ b, x ≠ '.' := digits_ne hb (by decide)
  have hcomma : hasChar (a ++ '.' :: b) ',' = false :=
    hasChar_eq_false (no_char_append_cons (digits_ne ha (by decide)) (by decide)
      (digits_ne hb (by decide)))
  have hdot : hasChar (a ++ '.' :: b) '.' = true := hasChar_of_mem (by simp)
  have hsplit : splitOnChar '.' (a ++ '.' :: b) = [a, b] := by
    rw [splitOnChar_append hna, splitOnChar_not_mem hnb]
  have hfa : List.filter (fun x => !decide (x = '.')) a = a :=
    List.filter_eq_self.mpr fun x hx => by simp [hna x hx]
  have hfb : List.filter (fun x => !decide (x = '.')) b = b :=
    List.filter_eq_self.mpr fun x hx => by simp [hnb x hx]
  unfold resolveSeps
  simp [hcomma, hdot, hsplit, hb3]
  rw [hfa, hfb]

theorem resolveSeps_dotKeep {a b : List Char} (ha : a.all Char.isDigit = true)
    (hb : b.all Char.isDigit = true) (hb3 : b.length ≠ 3) :
    resolveSeps (a ++ '.' :: b) = a ++ '.' :: b := by
  have hna : ∀ x ∈ a, x ≠ '.' := digits_ne ha (by decide)
  have hnb : ∀ x ∈ b, x ≠ '.' := digits_ne hb (by decide)
  have hcomma : hasChar (a ++ '.' :: b) ',' = false :=
    hasChar_eq_false (no_char_append_cons (digits_ne ha (by decide)) (by decide)
      (digits_ne hb (by decide)))
  have hdot : hasChar (a ++ '.' :: b) '.' = true := hasChar_of_mem (by simp)
  have hsplit : splitOnChar '.' (a ++ '.' :: b) = [a, b] := by
    rw [splitOnChar_append hna, splitOnChar_not_mem hnb]
  unfold resolveSeps
  simp [hcomma, hdot, hsplit, hb3]

theorem resolveSeps_euro {a b c : List Char} (ha : a.all Char.isDigit = true)
    (hb : b.all Char.isDigit = true) (hc : c.all Char.isDigit = true) :
    resolveSeps (a ++ '.' :: (b ++ ',' :: c)) = (a ++ b) ++ '.' :: c := by
  have hnad : ∀ x ∈ a, x ≠ '.' := digits_ne ha (by decide)
  have hnbd : ∀ x ∈ b, x ≠ '.' := digits_ne hb (by decide)
  have hncd : ∀ x ∈ c, x ≠ '.' := digits_ne hc (by decide)
  have hnac : ∀ x ∈ a, x ≠ ',' := digits_ne ha (by decide)
  have hnbc : ∀ x ∈ b, x ≠ ',' := digits_ne hb (by decide)
  have hncc : ∀ x ∈ c, x ≠ ',' := digits_ne hc (by decide)
  have hcomma : hasChar (a ++ '.' :: (b ++ ',' :: c)) ',' = true := hasChar_of_mem (by simp)
  have hdot : hasChar (a ++ '.' :: (b ++ ',' :: c)) '.' = true := hasChar_of_mem (by simp)
  have hlc : lastIdxAux ',' (a ++ '.' :: (b ++ ',' :: c)) = some ((a ++ '.' :: b).length + 0) := by
    have hassoc : a ++ '.' :: (b ++ ',' :: c) = (a ++ '.' :: b) ++ ',' :: c := by simp
    rw [hassoc]
    exact lastIdxAux_append_some (lastIdxAux_cons_none (lastIdxAux_not_mem hncc)) _
  have hld : lastIdxAux '.' (a ++ '.' :: (b ++ ',' :: c)) = some (a.length + 0) :=
    lastIdxAux_append_some
      (lastIdxAux_cons_none (lastIdxAux_not_mem
        (no_char_append_cons hnbd (by decide) hncd))) _
  have hgt : rfind ',' (a ++ '.' :: (b ++ ',' :: c)) > rfind '.' (a ++ '.' :: (b ++ ',' :: c)) := by
    rw [rfind_eq hlc, rfind_eq hld]
    have hlen : (a ++ '.' :: b).length = a.length + 1 + b.length := by
      simp
      omega
    rw [hlen]
    omega
  have hfa : List.filter (fun x => !decide (x = '.')) a = a :=
    List.filter_eq_self.mpr fun x hx => by simp [hnad x hx]
  have hfb : List.filter (fun x => !decide (x = '.')) b = b :=
    List.filter_eq_self.mpr fun x hx => by simp [hnbd x hx]
  have hfc : List.filter (fun x => !decide (x = '.')) c = c :=
    List.filter_eq_self.mpr fun x hx => by simp [hncd x hx]
  have hma : a.map (fun ch => if ch = ',' then '.' else ch) = a := map_commaToDot_of hnac
  have hmb : b.map (fun ch => if ch = ',' then '.' else ch) = b := map_commaToDot_of hnbc
  have hmc : c.map (fun ch => if ch = ',' then '.' else ch) = c := map_commaToDot_of hncc
  unfold resolveSeps
  simp [hcomma, hdot, hgt]
  rw [hfa, hfb, hfc, hma, hmb, hmc]

theorem resolveSeps_us {a b c : List Char} (ha : a.all Char.isDigit = true)
    (hb : b.all Char.isDigit = true) (hc : c.all Char.isDigit = true) :
    resolveSeps (a ++ ',' :: (b ++ '.' :: c)) = (a ++ b) ++ '.' :: c := by
  have hnac : ∀ x ∈ a, x ≠ ',' := digits_ne ha (by decide)
  have hnbc : ∀ x ∈ b, x ≠ ',' := digits_ne hb (by decide)
  have hncc : ∀ x ∈ c, x ≠ ',' := digits_ne hc (by decide)
  have hncd : ∀ x ∈ c, x ≠ '.' := digits_ne hc (by decide)
  have hcomma : hasChar (a ++ ',' :: (b ++ '.' :: c)) ',' = true := hasChar_of_mem (by simp)
  have hdot : hasChar (a ++ ',' :: (b ++ '.' :: c)) '.' = true := hasChar_of_mem (by simp)
  have hlc : lastIdxAux ',' (a ++ ',' :: (b ++ '.' :: c)) = some (a.length + 0) :=
    lastIdxAux_append_some
      (lastIdxAux_cons_none (lastIdxAux_not_mem
        (no_char_append_cons hnbc (by decide) hncc))) _
  have hld : lastIdxAux '.' (a ++ ',' :: (b ++ '.' :: c)) = some ((a ++ ',' :: b).length + 0) := by
    have hassoc : a ++ ',' :: (b ++ '.' :: c) = (a ++ ',' :: b) ++ '.' :: c := by simp
    rw [hassoc]
    exact lastIdxAux_append_some (lastIdxAux_cons_none (lastIdxAux_not_mem hncd)) _
  have hngt : ¬(rfind ',' (a ++ ',' :: (b ++ '.' :: c)) > rfind '.' (a ++ ',' :: (b ++ '.' :: c))) := by
    rw [rfind_eq hlc, rfind_eq hld]
    have hlen : (a ++ ',' :: b).length = a.length + 1 + b.length := by
      simp
      omega
    rw [hlen]
    omega
  have hfa : List.filter (fun x => !decide (x = ',')) a = a :=
    List.filter_eq_self.mpr fun x hx => by simp [hnac x hx]
  have hfb : List.filter (fun x => !decide (x = ',')) b = b :=
    List.filter_eq_self.mpr fun x hx => by simp [hnbc x hx]
  have hfc : List.filter (fun x => !decide (x = ',')) c = c :=
    List.filter_eq_self.mpr fun x hx => by simp [hncc x hx]
  unfold resolveSeps
  simp [hcomma, hdot, hngt]
  rw [hfa, hfb, hfc]

/-- On an all-numeric-character body, `_parse_numeric_string` reduces to
`float()` of the separator-resolved string (sign handling is vacuous). -/
theorem parseNumeric_body {cs : List Char} (h : cs.all isNumChar = true) (hne : cs ≠ []) :
    parseNumericString (String.mk cs) =
      floatVal (resolveSeps (cs.filter (fun x => x ≠ apos))) := by
  have hdata : (String.mk cs).data = cs := rfl
  have hstrip : pyStrip cs = cs :=
    pyStrip_eq_self (fun c hc => not_ws_of_numChar (by simpa using List.all_eq_true.mp h c hc))
  have hfilter : cs.filter isNumChar = cs :=
    List.filter_eq_self.mpr (fun a ha => by simpa using List.all_eq_true.mp h a ha)
  unfold parseNumericString
  rw [hdata]
  rw [if_neg (by simp [hne])]
  simp only [hstrip, splitSign_of_numChar h, hfilter]
  rw [if_neg (by simp [hne])]
  cases hF : floatVal (resolveSeps (cs.filter (fun x => x ≠ apos))) <;> simp [hF]

/-! ### `_parse_numeric_string` on the locale shapes -/

theorem filter_ne_apos_id {cs : List Char} (h : ∀ x ∈ cs, x ≠ apos) :
    cs.filter (fun x => x ≠ apos) = cs :=
  List.filter_eq_self.mpr fun x hx => by simp [h x hx]

theorem parseNumeric_euro {a b c : List Char} (ha : a.all Char.isDigit = true)
    (hb : b.all Char.isDigit = true) (hc : c.all Char.isDigit = true)
    (hne : a ++ b ++ c ≠ []) :
    parseNumericString (String.mk (a ++ '.' :: (b ++ ',' :: c))) =
      some ((digitsToNat (a ++ b) : Rat) + (digitsToNat c : Rat) / (10 : Rat) ^ c.length) := by
  have hall : (a ++ '.' :: (b ++ ',' :: c)).all isNumChar = true :=
    all_numChar_append_cons (all_numChar_of_digits ha) (by decide)
      (all_numChar_append_cons (all_numChar_of_digits hb) (by decide)
        (all_numChar_of_digits hc))
  have hsne : a ++ '.' :: (b ++ ',' :: c) ≠ [] := by simp
  have hapos : (a ++ '.' :: (b ++ ',' :: c)).filter (fun x => x ≠ apos)
      = a ++ '.' :: (b ++ ',' :: c) :=
    filter_ne_apos_id (no_char_append_cons (digits_ne ha (by decide)) (by decide)
      (no_char_append_cons (digits_ne hb (by decide)) (by decide)
        (digits_ne hc (by decide))))
  have hab : (a ++ b).all Char.isDigit = true := by simp [List.all_append, ha, hb]
  rw [parseNumeric_body hall hsne, hapos, resolveSeps_euro ha hb hc]
  exact floatVal_dec hab hc hne

theorem parseNumeric_us {a b c : List Char} (ha : a.all Char.isDigit = true)
    (hb : b.all Char.isDigit = true) (hc : c.all Char.isDigit = true)
    (hne : a ++ b ++ c ≠ []) :
    parseNumericString (String.mk (a ++ ',' :: (b ++ '.' :: c))) =
      some ((digitsToNat (a ++ b) : Rat) + (digitsToNat c : Rat) / (10 : Rat) ^ c.length) := by
  have hall : (a ++ ',' :: (b ++ '.' :: c)).all isNumChar = true :=
    all_numChar_append_cons (all_numChar_of_digits ha) (by decide)
      (all_numChar_append_cons (all_numChar_of_digits hb) (by decide)
        (all_numChar_of_digits hc))
  have hsne : a ++ ',' :: (b ++ '.' :: c) ≠ [] := by simp
  have hapos : (a ++ ',' :: (b ++ '.' :: c)).filter (fun x => x ≠ apos)
      = a ++ ',' :: (b ++ '.' :: c) :=
    filter_ne_apos_id (no_char_append_cons (digits_ne ha (by decide)) (by decide)
      (no_char_append_cons (digits_ne hb (by decide)) (by decide)
        (digits_ne hc (by decide))))
  have hab : (a ++ b).all Char.isDigit = true := by simp [List.all_append, ha, hb]
  rw [parseNumeric_body hall hsne, hapos, resolveSeps_us ha hb hc]
  exact floatVal_dec hab hc hne

theorem parseNumeric_comma3 {a b : List Char} (ha : a.all Char.isDigit = true)
    (hb : b.all Char.isDigit = true) (hb3 : b.length = 3) :
    parseNumericString (String.mk (a ++ ',' :: b)) = some ((digitsToNat (a ++ b) : Rat)) := by
  have hall : (a ++ ',' :: b).all isNumChar = true :=
    all_numChar_append_cons (all_numChar_of_digits ha) (by decide) (all_numChar_of_digits hb)
  have hsne : a ++ ',' :: b ≠ [] := by simp
  have hapos : (a ++ ',' :: b).filter (fun x => x ≠ apos) = a ++ ',' :: b :=
    filter_ne_apos_id (no_char_append_cons (digits_ne ha (by decide)) (by decide)
      (digits_ne hb (by decide)))
  have hab : (a ++ b).all Char.isDigit = true := by simp [List.all_append, ha, hb]
  have hbne : b ≠ [] := by intro h; rw [h] at hb3; simp at hb3
  rw [parseNumeric_body hall hsne, hapos, resolveSeps_comma3 ha hb hb3]
  exact floatVal_digits hab (by simp [hbne])

theorem parseNumeric_commaDec {a b : List Char} (ha : a.all Char.isDigit = true)
    (hb : b.all Char.isDigit = true) (hb1 : 1 ≤ b.length) (hb2 : b.length ≤ 2) :
    parseNumericString (String.mk (a ++ ',' :: b)) =
      some ((digitsToNat a : Rat) + (digitsToNat b : Rat) / (10 : Rat) ^ b.length) := by
  have hall : (a ++ ',' :: b).all isNumChar = true :=
    all_numChar_append_cons (all_numChar_of_digits ha) (by decide) (all_numChar_of_digits hb)
  have hsne : a ++ ',' :: b ≠ [] := by simp
  have hapos : (a ++ ',' :: b).filter (fun x => x ≠ apos) = a ++ ',' :: b :=
    filter_ne_apos_id (no_char_append_cons (digits_ne ha (by decide)) (by decide)
      (digits_ne hb (by decide)))
  have hbne : b ≠ [] := by
    intro h
    rw [h] at hb1
    simp at hb1
  rw [parseNumeric_body hall hsne, hapos, resolveSeps_commaDec ha hb hb2]
  exact floatVal_dec ha hb (by simp [hbne])

theorem parseNumeric_twoCommas {a b c : List Char} (ha : a.all Char.isDigit = true)
    (hb : b.all Char.isDigit = true) (hc : c.all Char.isDigit = true)
    (hne : a ++ b ++ c ≠ []) :
    parseNumericString (String.mk (a ++ ',' :: (b ++ ',' :: c))) =
      some ((digitsToNat (a ++ (b ++ c)) : Rat)) := by
  have hall : (a ++ ',' :: (b ++ ',' :: c)).all isNumChar = true :=
    all_numChar_append_cons (all_numChar_of_digits ha) (by decide)
      (all_numChar_append_cons (all_numChar_of_digits hb) (by decide)
        (all_numChar_of_digits hc))
  have hsne : a ++ ',' :: (b ++ ',' :: c) ≠ [] := by simp
  have hapos : (a ++ ',' :: (b ++ ',' :: c)).filter (fun x => x ≠ apos)
      = a ++ ',' :: (b ++ ',' :: c) :=
    filter_ne_apos_id (no_char_append_cons (digits_ne ha (by decide)) (by decide)
      (no_char_append_cons (digits_ne hb (by decide)) (by decide)
        (digits_ne hc (by decide))))
  have habc : (a ++ (b ++ c)).all Char.isDigit = true := by
    simp [List.all_append, ha, hb, hc]
  have hne' : a ++ (b ++ c) ≠ [] := by
    intro h
    apply hne
    rw [← List.append_assoc] at h
    exact h
  rw [parseNumeric_body hall hsne, hapos, resolveSeps_twoCommas ha hb hc]
  exact floatVal_digits habc hne'

theorem parseNumeric_dot3 {a b : List Char} (ha : a.all Char.isDigit = true)
    (hb : b.all Char.isDigit = true) (hb3 : b.length = 3) :
    parseNumericString (String.mk (a ++ '.' :: b)) = some ((digitsToNat (a ++ b) : Rat)) := by
  have hall : (a ++ '.' :: b).all isNumChar = true :=
    all_numChar_append_cons (all_numChar_of_digits ha) (by decide) (all_numChar_of_digits hb)
  have hsne : a ++ '.' :: b ≠ [] := by simp
  have hapos : (a ++ '.' :: b).filter (fun x => x ≠ apos) = a ++ '.' :: b :=
    filter_ne_apos_id (no_char_append_cons (digits_ne ha (by decide)) (by decide)
      (digits_ne hb (by decide)))
  have hab : (a ++ b).all Char.isDigit = true := by simp [List.all_append, ha, hb]
  have hbne : b ≠ [] := by intro h; rw [h] at hb3; simp at hb3
  rw [parseNumeric_body hall hsne, hapos, resolveSeps_dot3 ha hb hb3]
  exact floatVal_digits hab (by simp [hbne])

theorem parseNumeric_dotDec {a b : List Char} (ha : a.all Char.isDigit = true)
    (hb : b.all Char.isDigit = true) (hb3 : b.length ≠ 3) (hne : a ++ b ≠ []) :
    parseNumericString (String.mk (a ++ '.' :: b)) =
      some ((digitsToNat a : Rat) + (digitsToNat b : Rat) / (10 : Rat) ^ b.length) := by
  have hall : (a ++ '.' :: b).all isNumChar = true :=
    all_numChar_append_cons (all_numChar_of_digits ha) (by decide) (all_numChar_of_digits hb)
  have hsne : a ++ '.' :: b ≠ [] := by simp
  have hapos : (a ++ '.' :: b).filter (fun x => x ≠ apos) = a ++ '.' :: b :=
    filter_ne_apos_id (no_char_append_cons (digits_ne ha (by decide)) (by decide)
      (digits_ne hb (by decide)))
  rw [parseNumeric_body hall hsne, hapos, resolveSeps_dotKeep ha hb hb3]
  exact floatVal_dec ha hb hne

theorem parseNumeric_apos {a b : List Char} (ha : a.all Char.isDigit = true)
    (hb : b.all Char.isDigit = true) (hne : a ++ b ≠ []) :
    parseNumericString (String.mk (a ++ apos :: b)) = some ((digitsToNat (a ++ b) : Rat)) := by
  have hall : (a ++ apos :: b).all isNumChar = true :=
    all_numChar_append_cons (all_numChar_of_digits ha) (by decide) (all_numChar_of_digits hb)
  have hsne : a ++ apos :: b ≠ [] := by simp
  have hfa : List.filter (fun x => x ≠ apos) a = a :=
    filter_ne_apos_id (digits_ne ha (by decide))
  have hfb : List.filter (fun x => x ≠ apos) b = b :=
    filter_ne_apos_id (digits_ne hb (by decide))
  have hapos : (a ++ apos :: b).filter (fun x => x ≠ apos) = a ++ b := by
    rw [List.filter_append, List.filter_cons, hfa, hfb]
    simp
  have hab : (a ++ b).all Char.isDigit = true := by simp [List.all_append, ha, hb]
  rw [parseNumeric_body hall hsne, hapos, resolveSeps_digits hab]
  exact floatVal_digits hab hne

theorem parenMatch_mem {cs mid : List Char} {x : Char}
    (h : parenMatch cs = some mid) (hx : x ∈ mid) : x ∈ cs := by
  rcases cs with _ | ⟨c, rest⟩
  · simp [parenMatch] at h
  · simp [parenMatch] at h
    obtain ⟨-, -, hmid⟩ := h
    exact List.mem_cons_of_mem _
      ((List.dropLast_sublist rest).subset (by rw [hmid]; exact hx))

theorem mem_pyStrip {cs : List Char} {x : Char} (h : x ∈ pyStrip cs) : x ∈ cs := by
  unfold pyStrip at h
  have h1 := List.mem_reverse.mp h
  have h2 := (List.dropWhile_sublist (l := (cs.dropWhile Char.isWhitespace).reverse)
    Char.isWhitespace).subset h1
  have h3 := List.mem_reverse.mp h2
  exact (List.dropWhile_sublist (l := cs) Char.isWhitespace).subset h3

theorem mem_splitSignSnd {cs : List Char} {x : Char}
    (h : x ∈ (splitSign cs).2) : x ∈ cs := by
  unfold splitSign at h
  cases hpm : parenMatch cs with
  | some mid =>
    rw [hpm] at h
    simp only at h
    exact parenMatch_mem hpm h
  | none =>
    rw [hpm] at h
    rcases cs with _ | ⟨c, rest⟩
    · simp at h
    · by_cases h1 : c = '-'
      · simp only [h1, if_pos rfl] at h
        subst h1
        exact List.mem_cons_of_mem _ h
      · by_cases h2 : c = '−'
        · simp only [if_neg h1, h2, if_pos rfl] at h
          subst h2
          exact List.mem_cons_of_mem _ h
        · simpa [h1, h2] using h

theorem parseNumeric_noNumChars {s : String} (h : ∀ x ∈ s.data, isNumChar x = false) :
    parseNumericString s = none := by
  unfold parseNumericString
  by_cases hemp : s.data.isEmpty
  · simp [hemp]
  · rw [if_neg hemp]
    rcases hsp : splitSign (pyStrip s.data) with ⟨neg, body⟩
    simp only [hsp]
    have hfil : body.filter isNumChar = [] := by
      rw [List.filter_eq_nil_iff]
      intro a ha
      have hb : a ∈ (splitSign (pyStrip s.data)).2 := by rw [hsp]; exact ha
      simp [h a (mem_pyStrip (mem_splitSignSnd hb))]
    simp [hfil]

/-- C1: For every numeric string input to `NumberUnitParser`'s numeric-string
resolution: if both ',' and '.' occur, the later-occurring one is treated as
the decimal separator and the earlier one is stripped as grouping; if only
',' occurs, a comma followed by exactly 3 digits is stripped as grouping
(so "1,234" parses to 1234), a comma followed by 1–2 digits becomes the
decimal point, and multiple commas are all stripped as grouping; if only '.'
occurs, a dot followed by exactly 3 digits is stripped as grouping,
otherwise it is the decimal point; interior apostrophes are deleted as
grouping; and unparseable residue yields value `none` rather than an
error. -/
theorem C1_numeric_locale_resolution :
    (∀ a b c : List Char, a.all Char.isDigit = true → b.all Char.isDigit = true →
      c.all Char.isDigit = true → a ++ b ++ c ≠ [] →
      parseNumericString (String.mk (a ++ '.' :: (b ++ ',' :: c))) =
        some ((digitsToNat (a ++ b) : Rat) + (digitsToNat c : Rat) / (10 : Rat) ^ c.length)) ∧
    (∀ a b c : List Char, a.all Char.isDigit = true → b.all Char.isDigit = true →
      c.all Char.isDigit = true → a ++ b ++ c ≠ [] →
      parseNumericString (String.mk (a ++ ',' :: (b ++ '.' :: c))) =
        some ((digitsToNat (a ++ b) : Rat) + (digitsToNat c : Rat) / (10 : Rat) ^ c.length)) ∧
    (∀ a b : List Char, a.all Char.isDigit = true → b.all Char.isDigit = true →
      b.length = 3 →
      parseNumericString (String.mk (a ++ ',' :: b)) = some ((digitsToNat (a ++ b) : Rat))) ∧
    (∀ a b : List Char, a.all Char.isDigit = true → b.all Char.isDigit = true →
      1 ≤ b.length → b.length ≤ 2 →
      parseNumericString (String.mk (a ++ ',' :: b)) =
        some ((digitsToNat a : Rat) + (digitsToNat b : Rat) / (10 : Rat) ^ b.length)) ∧
    (∀ a b c : List Char, a.all Char.isDigit = true → b.all Char.isDigit = true →
      c.all Char.isDigit = true → a ++ b ++ c ≠ [] →
      parseNumericString (String.mk (a ++ ',' :: (b ++ ',' :: c))) =
        some ((digitsToNat (a ++ (b ++ c)) : Rat))) ∧
    (∀ a b : List Char, a.all Char.isDigit = true → b.all Char.isDigit = true →
      b.length = 3 →
      parseNumericString (String.mk (a ++ '.' :: b)) = some ((digitsToNat (a ++ b) : Rat))) ∧
    (∀ a b : List Char, a.all Char.isDigit = true → b.all Char.isDigit = true →
      b.length ≠ 3 → a ++ b ≠ [] →
      parseNumericString (String.mk (a ++ '.' :: b)) =
        some ((digitsToNat a : Rat) + (digitsToNat b : Rat) / (10 : Rat) ^ b.length)) ∧
    (∀ a b : List Char, a.all Char.isDigit = true → b.all Char.isDigit = true →
      a ++ b ≠ [] →
      parseNumericString (String.mk (a ++ apos :: b)) = some ((digitsToNat (a ++ b) : Rat))) ∧
    (∀ s : String, (∀ x ∈ s.data, isNumChar x = false) → parseNumericString s = none) ∧
    parseNumericString "1.2.3" = none :=
  ⟨fun _ _ _ ha hb hc hne => parseNumeric_euro ha hb hc hne,
   fun _ _ _ ha hb hc hne => parseNumeric_us ha hb hc hne,
   fun _ _ ha hb hb3 => parseNumeric_comma3 ha hb hb3,
   fun _ _ ha hb hb1 hb2 => parseNumeric_commaDec ha hb hb1 hb2,
   fun _ _ _ ha hb hc hne => parseNumeric_twoCommas ha hb hc hne,
   fun _ _ ha hb hb3 => parseNumeric_dot3 ha hb hb3,
   fun _ _ ha hb hb3 hne => parseNumeric_dotDec ha hb hb3 hne,
   fun _ _ ha hb hne => parseNumeric_apos ha hb hne,
   fun _ h => parseNumeric_noNumChars h,
   by decide⟩

/-- Witness for C1 at concrete inputs: "1.234,56", "1,234.56", "1,234",
"1234,56", "1,234,567", "1.234", "99.5", "1'234", and "abc". -/
theorem C1_numeric_locale_resolution_witness :
    parseNumericString (String.mk (['1'] ++ '.' :: (['2', '3', '4'] ++ ',' :: ['5', '6']))) =
      some ((digitsToNat (['1'] ++ ['2', '3', '4']) : Rat)
        + (digitsToNat ['5', '6'] : Rat) / (10 : Rat) ^ (['5', '6'] : List Char).length) ∧
    parseNumericString (String.mk (['1'] ++ ',' :: (['2', '3', '4'] ++ '.' :: ['5', '6']))) =
      some ((digitsToNat (['1'] ++ ['2', '3', '4']) : Rat)
        + (digitsToNat ['5', '6'] : Rat) / (10 : Rat) ^ (['5', '6'] : List Char).length) ∧
    parseNumericString (String.mk (['1'] ++ ',' :: ['2', '3', '4'])) =
      some ((digitsToNat (['1'] ++ ['2', '3', '4']) : Rat)) ∧
    parseNumericString (String.mk (['1', '2', '3', '4'] ++ ',' :: ['5', '6'])) =
      some ((digitsToNat ['1', '2', '3', '4'] : Rat)
        + (digitsToNat ['5', '6'] : Rat) / (10 : Rat) ^ (['5', '6'] : List Char).length) ∧
    parseNumericString (String.mk (['1'] ++ ',' :: (['2', '3', '4'] ++ ',' :: ['5', '6', '7']))) =
      some ((digitsToNat (['1'] ++ (['2', '3', '4'] ++ ['5', '6', '7'])) : Rat)) ∧
    parseNumericString (String.mk (['1'] ++ '.' :: ['2', '3', '4'])) =
      some ((digitsToNat (['1'] ++ ['2', '3', '4']) : Rat)) ∧
    parseNumericString (String.mk (['9', '9'] ++ '.' :: ['5'])) =
      some ((digitsToNat ['9', '9'] : Rat)
        + (digitsToNat ['5'] : Rat) / (10 : Rat) ^ (['5'] : List Char).length) ∧
    parseNumericString (String.mk (['1'] ++ apos :: ['2', '3', '4'])) =
      some ((digitsToNat (['1'] ++ ['2', '3', '4']) : Rat)) ∧
    parseNumericString "abc" = none :=
  ⟨C1_numeric_locale_resolution.1 ['1'] ['2', '3', '4'] ['5', '6']
      (by decide) (by decide) (by decide) (by decide),
   C1_numeric_locale_resolution.2.1 ['1'] ['2', '3', '4'] ['5', '6']
      (by decide) (by decide) (by decide) (by decide),
   C1_numeric_locale_resolution.2.2.1 ['1'] ['2', '3', '4']
      (by decide) (by decide) (by decide),
   C1_numeric_locale_resolution.2.2.2.1 ['1', '2', '3', '4'] ['5', '6']
      (by decide) (by decide) (by decide) (by decide),
   C1_numeric_locale_resolution.2.2.2.2.1 ['1'] ['2', '3', '4'] ['5', '6', '7']
      (by decide) (by decide) (by decide) (by decide),
   C1_numeric_locale_resolution.2.2.2.2.2.1 ['1'] ['2', '3', '4']
      (by decide) (by decide) (by decide),
   C1_numeric_locale_resolution.2.2.2.2.2.2.1 ['9', '9'] ['5']
      (by decide) (by decide) (by decide) (by decide),
   C1_numeric_locale_resolution.2.2.2.2.2.2.2.1 ['1'] ['2', '3', '4']
      (by decide) (by decide) (by decide),
   C1_numeric_locale_resolution.2.2.2.2.2.2.2.2.1 "abc" (by decide)⟩

/-! ### C2–C4: dispatch order, currency symbols, original_text -/

theorem parsePercentage_text (t : String) : (parsePercentage t).original_text = t := by
  unfold parsePercentage
  dsimp only
  split <;> rfl

theorem parseCurrency_text (t : String) : (parseCurrency t).original_text = t := rfl

theorem parseArea_text (t : String) : (parseArea t).original_text = t := by
  unfold parseArea
  dsimp only
  split <;> rfl

theorem parseWithUnit_text (t u : String) : (parseWithUnit t u).original_text = t := rfl

/-- C2: For every string input to `NumberUnitParser.parse` that is not a
null/blank/sentinel (and string inputs are exactly the non-numeric,
non-null case of `parse`), unit detection follows the fixed order with the
first match winning: percent sign → percentage parse; else currency symbol
or 3-letter ISO code (word-boundary, case-insensitive) → currency parse;
else area-unit token → area parse; else duration/magnitude keyword →
generic unit parse; otherwise the pure-number parse with unit `none`. -/
theorem C2_detection_order (s : String)
    (hne : (pyStripS s).data ≠ [])
    (hsent : sentinels.contains (lowerS (pyStripS s)) = false) :
    ((cleanAffixes (pyStripS s).data).contains '%' = true →
      parseString s = parsePercentage (pyStripS s)) ∧
    ((cleanAffixes (pyStripS s).data).contains '%' = false →
      ((symbolSearch (cleanAffixes (pyStripS s).data)).isSome
        || (codeSearch (cleanAffixes (pyStripS s).data)).isSome) = true →
      parseString s = parseCurrency (pyStripS s)) ∧
    ((cleanAffixes (pyStripS s).data).contains '%' = false →
      ((symbolSearch (cleanAffixes (pyStripS s).data)).isSome
        || (codeSearch (cleanAffixes (pyStripS s).data)).isSome) = false →
      (areaSearch (cleanAffixes (pyStripS s).data)).isSome = true →
      parseString s = parseArea (pyStripS s)) ∧
    ((cleanAffixes (pyStripS s).data).contains '%' = false →
      ((symbolSearch (cleanAffixes (pyStripS s).data)).isSome
        || (codeSearch (cleanAffixes (pyStripS s).data)).isSome) = false →
      (areaSearch (cleanAffixes (pyStripS s).data)).isSome = false →
      ∀ u, extractOtherUnit (cleanAffixes (pyStripS s).data) = some u →
      parseString s = parseWithUnit (pyStripS s) u) ∧
    ((cleanAffixes (pyStripS s).data).contains '%' = false →
      ((symbolSearch (cleanAffixes (pyStripS s).data)).isSome
        || (codeSearch (cleanAffixes (pyStripS s).data)).isSome) = false →
      (areaSearch (cleanAffixes (pyStripS s).data)).isSome = false →
      extractOtherUnit (cleanAffixes (pyStripS s).data) = none →
      parseString s =
        ⟨parseNumericString (String.mk (cleanAffixes (pyStripS s).data)), none, pyStripS s⟩) := by
  have h1 : (pyStripS s).data.isEmpty = false := by
    cases hd : (pyStripS s).data with
    | nil => exact absurd hd hne
    | cons a l => rfl
  have hcond : ((pyStripS s).data.isEmpty
      || sentinels.contains (lowerS (pyStripS s))) = false := by
    rw [h1, hsent]
    rfl
  refine ⟨?_, ?_, ?_, ?_, ?_⟩
  · intro hp
    unfold parseString
    simp only [hcond, Bool.false_eq_true, if_false, hp, if_true]
  · intro hp hcur
    unfold parseString
    simp only [hcond, Bool.false_eq_true, if_false, hp, hcur, if_true]
  · intro hp hcur harea
    unfold parseString
    simp only [hcond, Bool.false_eq_true, if_false, hp, hcur, harea, if_true]
  · intro hp hcur harea u hu
    unfold parseString
    simp only [hcond, Bool.false_eq_true, if_false, hp, hcur, harea, hu]
  · intro hp hcur harea hother
    unfold parseString
    simp only [hcond, Bool.false_eq_true, if_false, hp, hcur, harea, hother]

/-- Witness for C2 at concrete inputs: "95%", "100 EUR", "500 m²",
"3 Jahre", "1234", one per detection branch. -/
theorem C2_detection_order_witness :
    parseString "95%" = parsePercentage (pyStripS "95%") ∧
    parseString "100 EUR" = parseCurrency (pyStripS "100 EUR") ∧
    parseString "500 m²" = parseArea (pyStripS "500 m²") ∧
    parseString "3 Jahre" = parseWithUnit (pyStripS "3 Jahre") "Jahre" ∧
    parseString "1234" =
      ⟨parseNumericString (String.mk (cleanAffixes (pyStripS "1234").data)), none,
        pyStripS "1234"⟩ :=
  ⟨(C2_detection_order "95%" (by decide) (by decide)).1 (by decide),
   (C2_detection_order "100 EUR" (by decide) (by decide)).2.1 (by decide) (by decide),
   (C2_detection_order "500 m²" (by decide) (by decide)).2.2.1
     (by decide) (by decide) (by decide),
   (C2_detection_order "3 Jahre" (by decide) (by decide)).2.2.2.1
     (by decide) (by decide) (by decide) "Jahre" (by decide),
   (C2_detection_order "1234" (by decide) (by decide)).2.2.2.2
     (by decide) (by decide) (by decide) (by decide)⟩

/-- C3 (code evaluated at the failing inputs): the `CURRENCY_SYMBOLS` table
does map "zł"→"PLN" and "kr"→"SEK", but the compiled symbol regex
`([€$£¥₹元])` omits both, so `parse` never routes such inputs to the
currency parse: "100 zł" and "1000 kr" fall through to the pure-number
parse and get unit `none`, contradicting the claimed unit PLN/SEK (and the
class docstring, which lists zł and kr among the supported symbols). -/
theorem C3_two_char_symbols_not_detected :
    (CURRENCY_SYMBOLS.find? (fun p => p.1 = "zł")).map Prod.snd = some "PLN" ∧
    (CURRENCY_SYMBOLS.find? (fun p => p.1 = "kr")).map Prod.snd = some "SEK" ∧
    parseString "100 zł" = ⟨some 100, none, "100 zł"⟩ ∧
    parseString "1000 kr" = ⟨some 1000, none, "1000 kr"⟩ ∧
    (parseString "100 zł").unit ≠ some "PLN" ∧
    (parseString "1000 kr").unit ≠ some "SEK" := by
  refine ⟨by decide, by decide, by decide, by decide, by decide, by decide⟩

/-- C4 counterexample: `parse` stores `str(value).strip()`, not the verbatim
source: on `" 100 "` the returned original_text is `"100"`. -/
theorem C4_original_text_counterexample :
    (parseString " 100 ").original_text ≠ " 100 " ∧
    (parseString " 100 ").original_text = "100" := by
  refine ⟨by decide, by decide⟩

/-- C4 (amended): for every string input, the original_text field of the
returned value equals the source string with leading and trailing
whitespace stripped (approximation markers, comparison operators, and unit
tokens are never removed from it). -/
theorem C4_original_text_stripped (s : String) :
    (parseString s).original_text = pyStripS s := by
  unfold parseString
  dsimp only
  split
  · rfl
  · split
    · exact parsePercentage_text _
    · split
      · exact parseCurrency_text _
      · split
        · exact parseArea_text _
        · split
          · exact parseWithUnit_text _ _
          · rfl

/-! ### C5: map_header matching order -/

theorem mapHeaderAux_flat (normalized : String) (table : List (String × List String)) :
    mapHeaderAux normalized table =
      ((table.flatMap (fun p => p.2.map (fun syn => (p.1, syn)))).find?
          (fun p => synHit normalized p.2)).map Prod.fst := by
  induction table with
  | nil => rfl
  | cons hd rest ih =>
    rcases hd with ⟨canonical, syns⟩
    simp only [mapHeaderAux, List.flatMap_cons, List.find?_append, List.find?_map]
    by_cases h : syns.any (fun syn => synHit normalized syn) = true
    · rw [if_pos h]
      cases hfind : syns.find?
          ((fun p => synHit normalized p.2) ∘ (fun syn => (canonical, syn))) with
      | none =>
        exfalso
        rw [List.find?_eq_none] at hfind
        obtain ⟨x, hx, hpx⟩ := List.any_eq_true.mp h
        exact hfind x hx (by simpa [Function.comp] using hpx)
      | some y =>
        simp
    · rw [if_neg h]
      have hnone : syns.find?
          ((fun p => synHit normalized p.2) ∘ (fun syn => (canonical, syn))) = none := by
        rw [List.find?_eq_none]
        intro x hx hpx
        exact h (List.any_eq_true.mpr ⟨x, hx, by simpa [Function.comp] using hpx⟩)
      rw [hnone]
      simpa using ih

/-- C5 counterexample: the normalized header "wirtschaftseinheit" is
exactly a synonym of `business_unit`, yet `map_header` returns `unit_id`,
because the containment test for the earlier `unit_id` synonym "einheit"
fires first — exact matching is NOT tried against the whole table before
containment. -/
theorem C5_exact_match_not_global :
    mapHeader "Wirtschaftseinheit" = some "unit_id" ∧
    ("business_unit", ["wirtschaftseinheit", "business unit", "wirtschafts einheit",
      "wi einheit", "we", "we einheit"]) ∈ DEFAULT_SYNONYMS ∧
    normalizeHeader "Wirtschaftseinheit" = normalizeHeader "wirtschaftseinheit" ∧
    mapHeader "Wirtschaftseinheit" ≠ some "business_unit" := by
  refine ⟨by decide, by decide, by decide, by decide⟩

/-- C5 (amended): `map_header` performs one interleaved pass: for each
(canonical tag, synonym) pair in table iteration order it tests exact
normalized equality and then substring containment (the latter only for
synonyms longer than 3 characters), and the first matching pair wins — an
exact match elsewhere in the table does not take precedence over an earlier
containment match. -/
theorem C5_map_header_first_pair (raw : String) :
    mapHeader raw = mapHeaderFlat raw := by
  unfold mapHeader mapHeaderFlat flatSynonymPairs
  by_cases h : normalizeHeader raw = ""
  · simp [h]
  · simp only [h, if_false]
    rw [mapHeaderAux_flat]
    cases hf : (DEFAULT_SYNONYMS.flatMap fun p => p.2.map (fun syn => (p.1, syn))).find?
        (fun p => synHit (normalizeHeader raw) p.2) <;> simp [hf]

/-! ### C6: identity resolution -/

theorem recGet_set_self (r : Record) (k : String) (v : PyVal) :
    recGet (recSet r k v) k = some v := by
  induction r with
  | nil => simp [recSet, recGet]
  | cons hd rest ih =>
    rcases hd with ⟨k1, v1⟩
    by_cases h : k1 = k
    · simp [recSet, h, recGet]
    · simp [recSet, h, recGet, ih]

theorem recGet_set_ne {k' k : String} (r : Record) (v : PyVal) (h : k' ≠ k) :
    recGet (recSet r k v) k' = recGet r k' := by
  induction r with
  | nil => simp [recSet, recGet, Ne.symm h]
  | cons hd rest ih =>
    rcases hd with ⟨k1, v1⟩
    by_cases h1 : k1 = k
    · subst h1
      simp [recSet, recGet, Ne.symm h]
    · simp [recSet, h1, recGet, ih]

theorem recGet_erase_self (r : Record) (k : String) :
    recGet (recErase r k) k = none := by
  induction r with
  | nil => simp [recErase, recGet]
  | cons hd rest ih =>
    rcases hd with ⟨k1, v1⟩
    by_cases h : k1 = k
    · simp [recErase, List.filter_cons, h, recGet]
      simpa [recErase] using ih
    · simp [recErase, List.filter_cons, h, recGet]
      simpa [recErase] using ih

theorem recGet_erase_ne {k' k : String} (r : Record) (h : k' ≠ k) :
    recGet (recErase r k) k' = recGet r k' := by
  induction r with
  | nil => simp [recErase, recGet]
  | cons hd rest ih =>
    rcases hd with ⟨k1, v1⟩
    by_cases h1 : k1 = k
    · subst h1
      simp [recErase, List.filter_cons, recGet, Ne.symm h]
      simpa [recErase] using ih
    · by_cases h2 : k1 = k'
      · simp [recErase, List.filter_cons, h1, recGet, h2, h]
      · simp [recErase, List.filter_cons, h1, recGet, h2]
        simpa [recErase] using ih

theorem unitStep_preserves (r : Record) (k : String) (hk : k ≠ "unit_id") :
    recGet (unitStep r) k = recGet r k := by
  unfold unitStep
  by_cases h0 : pyTruthyO (recGet r "unit_id") = true
  · rw [if_pos h0]
  · rw [if_neg h0]
    rcases hc : truthyGet r "composite_unit_id" with _ | c
    · rcases hs : truthyGet r "sap_object_number" with _ | sapObj
      · rcases hct : truthyGet r "contract_id" with _ | ct
        · simp only [hc, hs, hct]
          split
          · exact recGet_set_ne r _ hk
          · rfl
        · simp only [hc, hs, hct]
          exact recGet_set_ne r _ hk
      · simp only [hc, hs]
        exact recGet_set_ne r _ hk
    · simp only [hc]
      exact recGet_set_ne r _ hk

theorem assetStep_preserves (r : Record) (k : String) (hk : k ≠ "asset_id") :
    recGet (assetStep r) k = recGet r k := by
  unfold assetStep
  split
  · split
    · exact recGet_set_ne r _ hk
    · rfl
  · rfl

/-- C6: During identity resolution, a record whose name field is purely
numeric after stripping whitespace and a trailing ".0" run, and which does
not look like a phone number, has the value moved to `tenant_id` and the
name field cleared; a phone-shaped value such as "+49 170 1234567" stays in
the name field. -/
theorem C6_numeric_tenant_name_resolution (r : Record) (str : String)
    (hname : recGet r "tenant_name" = some (.s str)) :
    ((String.mk (stripDotZeros (pyStrip str.data)) ≠ "" →
      (stripDotZeros (pyStrip str.data)).all Char.isDigit = true →
      isPhoneNumber (String.mk (stripDotZeros (pyStrip str.data))) = false →
      recGet (resolveRecord r) "tenant_id"
          = some (.s (String.mk (stripDotZeros (pyStrip str.data)))) ∧
      recGet (resolveRecord r) "tenant_name" = none)) ∧
    (str = "+49 170 1234567" →
      recGet (resolveRecord r) "tenant_name" = some (.s "+49 170 1234567")) := by
  constructor
  · intro hne hdig hphone
    have hstr : ¬(PyVal.s str = PyVal.s "") := by
      intro he
      injection he with he'
      subst he'
      exact hne rfl
    have htenant : tenantStep r
        = recErase (recSet r "tenant_id" (.s (String.mk (stripDotZeros (pyStrip str.data)))))
            "tenant_name" := by
      unfold tenantStep
      simp only [hname]
      rw [if_neg hstr]
      simp only [numericIdCandidate]
      rw [if_pos (by simp [hne, hdig, hphone])]
    have h_id : recGet (tenantStep r) "tenant_id"
        = some (.s (String.mk (stripDotZeros (pyStrip str.data)))) := by
      rw [htenant, recGet_erase_ne _ (by decide), recGet_set_self]
    have h_nm : recGet (tenantStep r) "tenant_name" = none := by
      rw [htenant, recGet_erase_self]
    have hp : partnerStep (tenantStep r) = tenantStep r := by
      unfold partnerStep
      rw [if_neg (by simp [h_nm, h_id, pyTruthyO, pyTruthy, hne])]
    refine ⟨?_, ?_⟩
    · unfold resolveRecord
      rw [hp, assetStep_preserves _ _ (by decide), unitStep_preserves _ _ (by decide), h_id]
    · unfold resolveRecord
      rw [hp, assetStep_preserves _ _ (by decide), unitStep_preserves _ _ (by decide), h_nm]
  · intro hstr
    subst hstr
    have ht : tenantStep r = r := by
      unfold tenantStep
      simp only [hname]
      rw [if_neg (by decide)]
      simp only [numericIdCandidate]
      rw [if_neg (by decide)]
    have hpp : partnerStep r = r := by
      unfold partnerStep
      rw [if_neg (by simp [hname, pyTruthyO, pyTruthy])]
    unfold resolveRecord
    rw [ht, hpp, assetStep_preserves _ _ (by decide), unitStep_preserves _ _ (by decide), hname]

/-- Witness for C6: the record with name "62210" gets tenant_id "62210" and
a cleared name; the record with name "+49 170 1234567" keeps its name. -/
theorem C6_numeric_tenant_name_resolution_witness :
    (recGet (resolveRecord [("tenant_name", .s "62210")]) "tenant_id"
        = some (.s (String.mk (stripDotZeros (pyStrip ("62210" : String).data)))) ∧
      recGet (resolveRecord [("tenant_name", .s "62210")]) "tenant_name" = none) ∧
    recGet (resolveRecord [("tenant_name", .s "+49 170 1234567")]) "tenant_name"
      = some (.s "+49 170 1234567") :=
  ⟨(C6_numeric_tenant_name_resolution [("tenant_name", .s "62210")] "62210" (by decide)).1
      (by decide) (by decide) (by decide),
   (C6_numeric_tenant_name_resolution [("tenant_name", .s "+49 170 1234567")]
      "+49 170 1234567" (by decide)).2 rfl⟩

/-! ### C7: summary stop and blank skip in extract_data -/

theorem ws_cases {c : Char} (h : c.isWhitespace = true) :
    c = ' ' ∨ c = '\t' ∨ c = '\x0d' ∨ c = '\n' := by
  by_cases h1 : c = ' '
  · exact Or.inl h1
  by_cases h2 : c = '\t'
  · exact Or.inr (Or.inl h2)
  by_cases h3 : c = '\x0d'
  · exact Or.inr (Or.inr (Or.inl h3))
  by_cases h4 : c = '\n'
  · exact Or.inr (Or.inr (Or.inr h4))
  exfalso
  have hf : c.isWhitespace = false := by simp [Char.isWhitespace, h1, h2, h3, h4]
  rw [h] at hf
  exact absurd hf (by decide)

theorem toLower_ws_fix {c : Char} (h : c.isWhitespace = true) : c.toLower = c := by
  rcases ws_cases h with rfl | rfl | rfl | rfl <;> decide

theorem pyStrip_nil_mp {l : List Char} (h : pyStrip l = []) :
    ∀ c ∈ l, c.isWhitespace = true := by
  unfold pyStrip at h
  rw [List.reverse_eq_nil_iff] at h
  have h4 : ∀ c ∈ l.dropWhile Char.isWhitespace, c.isWhitespace = true := fun c hc =>
    List.dropWhile_eq_nil_iff.mp h c (List.mem_reverse.mpr hc)
  intro c hc
  rcases List.mem_append.mp
      (by rw [List.takeWhile_append_dropWhile (p := Char.isWhitespace)]; exact hc)
    with h5 | h5
  · exact List.mem_takeWhile_imp h5
  · exact h4 c h5

theorem blank_not_summary {b : List Cell} (hne : b ≠ []) (hb : isBlankRow b = true) :
    isSummaryCell (firstCellStr b) = false := by
  rcases b with _ | ⟨c, rest⟩
  · exact absurd rfl hne
  · by_cases hna : cellNa c = true
    · have hfc : firstCellStr (c :: rest) = "" := by simp [firstCellStr, cellStrNa, hna]
      rw [hfc]
      decide
    · have hstrip : pyStrip (cellStr c).data = [] := by
        unfold isBlankRow at hb
        rcases Bool.or_eq_true_iff.mp hb with h1 | h2
        · exact absurd (by simpa using List.all_eq_true.mp h1 c (by simp)) (by simpa using hna)
        · have h3 := List.all_eq_true.mp h2 c (by simp)
          simpa [hna] using h3
      have hall : ∀ x ∈ (cellStr c).data, x.isWhitespace = true := pyStrip_nil_mp hstrip
      have hmap : (cellStr c).data.map Char.toLower = (cellStr c).data :=
        map_eq_self_of (fun x hx => toLower_ws_fix (hall x hx))
      have hfc : firstCellStr (c :: rest) = cellStr c := by
        simp [firstCellStr, cellStrNa, hna]
      rw [hfc]
      unfold isSummaryCell
      simp only [hmap, hstrip]
      decide

theorem extractRows_stop (mapped : List (Option String)) (s : List Cell)
    (post : List (List Cell)) (hs : isSummaryCell (firstCellStr s) = true) :
    ∀ pre : List (List Cell), (∀ r ∈ pre, isSummaryCell (firstCellStr r) = false) →
    ∀ i : Nat, extractRows mapped (pre ++ s :: post) i = extractRows mapped pre i := by
  intro pre
  induction pre with
  | nil =>
    intro _ i
    simp [extractRows, hs]
  | cons r rest ih =>
    intro hpre i
    have hr := hpre r (List.mem_cons_self _ _)
    have hrest := fun x hx => hpre x (List.mem_cons_of_mem _ hx)
    by_cases hb : isBlankRow r = true
    · simp only [List.cons_append, extractRows, hr, Bool.false_eq_true, if_false, hb, if_true]
      exact ih hrest (i + 1)
    · by_cases hm : hasMeaningfulData (processRow r mapped) = true
      · simp [extractRows, hr, hb, hm, List.cons_append]
        exact ih hrest (i + 1)
      · simp [extractRows, hr, hb, hm, List.cons_append]
        exact ih hrest (i + 1)

theorem extractRows_skip_blank (mapped : List (Option String)) (b : List Cell)
    (rest : List (List Cell)) (i : Nat) (hbne : b ≠ []) (hb : isBlankRow b = true) :
    extractRows mapped (b :: rest) i = extractRows mapped rest (i + 1) := by
  have hns := blank_not_summary hbne hb
  simp [extractRows, hns, hb]

/-- C7: `extract_data` stops at the first post-header row whose first cell
matches a summary/total/vacancy keyword — no row at or after that marker
contributes a record (the whole tail is discarded and the result equals the
extraction of the marker-free prefix) — while an all-blank row merely skips
to the next row without truncating.  The third conjunct ties the row loop
to `extract_data` itself. -/
theorem C7_summary_stop_blank_skip :
    (∀ (mapped : List (Option String)) (s : List Cell) (post pre : List (List Cell)),
      isSummaryCell (firstCellStr s) = true →
      (∀ r ∈ pre, isSummaryCell (firstCellStr r) = false) →
      ∀ i : Nat, extractRows mapped (pre ++ s :: post) i = extractRows mapped pre i) ∧
    (∀ (mapped : List (Option String)) (b : List Cell) (rest : List (List Cell)) (i : Nat),
      b ≠ [] → isBlankRow b = true →
      extractRows mapped (b :: rest) i = extractRows mapped rest (i + 1)) ∧
    (∀ (grid : List (List Cell)) (headerRow : Nat) (rawHeaders : List String),
      extractData grid headerRow rawHeaders =
        extractRows (rawHeaders.map mapHeader) (grid.drop (headerRow + 1)) (headerRow + 1)) :=
  ⟨fun mapped s post pre hs hpre i => extractRows_stop mapped s post hs pre hpre i,
   fun mapped b rest i hbne hb => extractRows_skip_blank mapped b rest i hbne hb,
   fun _ _ _ => rfl⟩

/-- Witness for C7: a "Total" row truncates (the trailing "Bob" row yields
nothing), a blank row is skipped. -/
theorem C7_summary_stop_blank_skip_witness :
    extractRows [some "tenant_name"]
        ([[some (.s "Alice")]] ++ [some (.s "Total")] :: [[some (.s "Bob")]]) 1
      = extractRows [some "tenant_name"] [[some (.s "Alice")]] 1 ∧
    extractRows [some "tenant_name"] ([(none : Cell)] :: [[some (.s "Bob")]]) 1
      = extractRows [some "tenant_name"] [[some (.s "Bob")]] 2 ∧
    extractData [[some (.s "Tenant")], [some (.s "Alice")]] 0 ["Tenant"]
      = extractRows (["Tenant"].map mapHeader)
          ([[some (.s "Tenant")], [some (.s "Alice")]].drop 1) 1 :=
  ⟨C7_summary_stop_blank_skip.1 [some "tenant_name"] [some (.s "Total")]
      [[some (.s "Bob")]] [[some (.s "Alice")]] (by decide) (by decide) 1,
   C7_summary_stop_blank_skip.2.1 [some "tenant_name"] [(none : Cell)]
      [[some (.s "Bob")]] 1 (by decide) (by decide),
   C7_summary_stop_blank_skip.2.2 [[some (.s "Tenant")], [some (.s "Alice")]] 0 ["Tenant"]⟩

/-! ### C8: per-sheet failure isolation -/

theorem processSheet_fail (fname ts name : String) (sd : SheetData)
    (h : sheetFailsB sd = true) :
    processSheet fname ts name sd = ([], [failWarning name sd], 0) := by
  cases sd with
  | error e => rfl
  | ok g =>
    have hf : findHeaderRow g = none := by simpa [sheetFailsB] using h
    simp [processSheet, hf, failWarning]

theorem processSheet_ok_warnings (fname ts name : String) (sd : SheetData)
    (h : sheetFailsB sd = false) :
    (processSheet fname ts name sd).2.1 = [] := by
  cases sd with
  | error e => simp [sheetFailsB] at h
  | ok g =>
    have hf : (findHeaderRow g).isNone = false := by simpa [sheetFailsB] using h
    cases hfr : findHeaderRow g with
    | none => rw [hfr] at hf; simp at hf
    | some pr =>
      rcases pr with ⟨hr, raw⟩
      simp [processSheet, hfr]

theorem processAllSheets_warnings_nil (fname ts : String) :
    ∀ l : List (String × SheetData), (∀ p ∈ l, sheetFailsB p.2 = false) →
      (processAllSheets fname ts l).2.1 = [] := by
  intro l
  induction l with
  | nil => intro _; rfl
  | cons hd rest ih =>
    intro hl
    rcases hd with ⟨nm, d⟩
    have h1 := processSheet_ok_warnings fname ts nm d (hl _ (List.mem_cons_self _ _))
    have h2 := ih (fun p hp => hl p (List.mem_cons_of_mem _ hp))
    simp [processAllSheets, h1, h2]

theorem processAllSheets_split (fname ts name : String) (sd : SheetData)
    (post : List (String × SheetData)) (hfail : sheetFailsB sd = true) :
    ∀ pre : List (String × SheetData),
      (processAllSheets fname ts (pre ++ (name, sd) :: post)).1
          = (processAllSheets fname ts (pre ++ post)).1 ∧
      (processAllSheets fname ts (pre ++ (name, sd) :: post)).2.1
          = (processAllSheets fname ts pre).2.1 ++ failWarning name sd ::
              (processAllSheets fname ts post).2.1 := by
  intro pre
  induction pre with
  | nil =>
    simp [processAllSheets, processSheet_fail fname ts name sd hfail]
  | cons hd rest ih =>
    rcases hd with ⟨nm, d⟩
    simp [processAllSheets, List.cons_append, ih.1, ih.2]

/-- C8: per-sheet failure is isolated.  A sheet whose header row cannot be
located, or whose read raises, contributes zero records and exactly one
warning naming that sheet, while all other chosen sheets are still
processed and their records returned; when every sibling succeeds the
warning list is exactly that one warning. -/
theorem C8_sheet_failure_isolated (fname ts : String)
    (pre post : List (String × SheetData)) (name : String) (sd : SheetData)
    (hfail : sheetFailsB sd = true) :
    (processAllSheets fname ts (pre ++ (name, sd) :: post)).1
        = (processAllSheets fname ts (pre ++ post)).1 ∧
    (processAllSheets fname ts (pre ++ (name, sd) :: post)).2.1
        = (processAllSheets fname ts pre).2.1 ++ failWarning name sd ::
            (processAllSheets fname ts post).2.1 ∧
    ((∀ p ∈ pre ++ post, sheetFailsB p.2 = false) →
      (processAllSheets fname ts (pre ++ (name, sd) :: post)).2.1
        = [failWarning name sd]) := by
  refine ⟨(processAllSheets_split fname ts name sd post hfail pre).1,
    (processAllSheets_split fname ts name sd post hfail pre).2, ?_⟩
  intro hok
  rw [(processAllSheets_split fname ts name sd post hfail pre).2,
    processAllSheets_warnings_nil fname ts pre
      (fun p hp => hok p (List.mem_append_left _ hp)),
    processAllSheets_warnings_nil fname ts post
      (fun p hp => hok p (List.mem_append_right _ hp))]
  rfl

/-- Witness for C8: a 3-sheet workbook whose middle sheet has no detectable
header returns the records of sheets 1 and 3 plus exactly the one warning
naming sheet 2. -/
theorem C8_sheet_failure_isolated_witness :
    (processAllSheets "f.xlsx" "T"
        ([("S1", Except.ok [[some (.s "Tenant"), some (.s "Unit ID")],
            [some (.s "Alice"), some (.s "A1")]])] ++
          ("S2", Except.ok [[some (.s "foo"), some (.s "bar")]]) ::
          [("S3", Except.ok [[some (.s "Mieter"), some (.s "Unit No")],
            [some (.s "Chris"), some (.s "C3")]])])).1
      = (processAllSheets "f.xlsx" "T"
          ([("S1", Except.ok [[some (.s "Tenant"), some (.s "Unit ID")],
              [some (.s "Alice"), some (.s "A1")]])] ++
            [("S3", Except.ok [[some (.s "Mieter"), some (.s "Unit No")],
              [some (.s "Chris"), some (.s "C3")]])])).1 ∧
    (processAllSheets "f.xlsx" "T"
        ([("S1", Except.ok [[some (.s "Tenant"), some (.s "Unit ID")],
            [some (.s "Alice"), some (.s "A1")]])] ++
          ("S2", Except.ok [[some (.s "foo"), some (.s "bar")]]) ::
          [("S3", Except.ok [[some (.s "Mieter"), some (.s "Unit No")],
            [some (.s "Chris"), some (.s "C3")]])])).2.1
      = [failWarning "S2" (Except.ok [[some (.s "foo"), some (.s "bar")]])] :=
  ⟨(C8_sheet_failure_isolated "f.xlsx" "T"
      [("S1", Except.ok [[some (.s "Tenant"), some (.s "Unit ID")],
          [some (.s "Alice"), some (.s "A1")]])]
      [("S3", Except.ok [[some (.s "Mieter"), some (.s "Unit No")],
          [some (.s "Chris"), some (.s "C3")]])]
      "S2" (Except.ok [[some (.s "foo"), some (.s "bar")]]) (by decide)).1,
   (C8_sheet_failure_isolated "f.xlsx" "T"
      [("S1", Except.ok [[some (.s "Tenant"), some (.s "Unit ID")],
          [some (.s "Alice"), some (.s "A1")]])]
      [("S3", Except.ok [[some (.s "Mieter"), some (.s "Unit No")],
          [some (.s "Chris"), some (.s "C3")]])]
      "S2" (Except.ok [[some (.s "foo"), some (.s "bar")]]) (by decide)).2.2
      (by decide)⟩

/-! ### C9 and C10 -/

/-- C9: `DataValidator.validate` leaves every record unchanged — the
record list threaded through the embedded loop comes out equal to the
input — and its findings are a separate advisory output. -/
theorem C9_validate_never_mutates (records : List Record) :
    (validate records).1 = records := by
  have haux : ∀ (idx : Nat) (rs : List Record), (validateAux idx rs).1 = rs := by
    intro idx rs
    induction rs generalizing idx with
    | nil => rfl
    | cons r rest ih => simp [validateAux, ih]
  exact haux 0 records

/-- C10: for every workbook that opens, `read_excel` returns success=true
iff at least one record was extracted; a workbook that opens fine but
yields zero records returns success=false. -/
theorem C10_success_iff_records (fname ts : String) (wb : List (String × SheetData))
    (allSheets : Bool) :
    (readExcelModel fname ts wb allSheets).success = true ↔
      (readExcelModel fname ts wb allSheets).data ≠ [] := by
  unfold readExcelModel
  dsimp only
  split <;> split <;> simp [List.isEmpty_iff]

end RentRoll
